import Mathlib

/-!
Verification of the lang-dev repository: a shallow embedding of the
couch-lang lexer/parser/evaluator and of the riara lexer/parser/runtime,
together with theorems settling the specification's claims about them.

Machine integers (Rust `i64`) are modelled as unbounded `Int`; the only
`i64` behaviours the claims depend on are division (which panics on a zero
divisor, modelled as `none`) and literal parsing (which fails beyond the
`i64` range).  Rust `f64` payloads are modelled as exact rationals; no
theorem below depends on floating-point rounding, only on the type tags of
float values.  A Rust panic (`panic!`, `todo!`, `unreachable!`, a failing
`unwrap`/`expect`, an out-of-bounds byte slice, or integer division by
zero) is modelled as `none`.
-/

/-- Number of bytes in the UTF-8 encoding of a character (Rust `char::len_utf8`). -/
def utf8Len (c : Char) : Nat :=
  if c.toNat < 0x80 then 1
  else if c.toNat < 0x800 then 2
  else if c.toNat < 0x10000 then 3
  else 4

/-- UTF-8 encoding of one character as a byte list. -/
def utf8EncodeChar (c : Char) : List Nat :=
  let n := c.toNat
  if n < 0x80 then [n]
  else if n < 0x800 then [0xC0 + n / 0x40, 0x80 + n % 0x40]
  else if n < 0x10000 then [0xE0 + n / 0x1000, 0x80 + n / 0x40 % 0x40, 0x80 + n % 0x40]
  else [0xF0 + n / 0x40000, 0x80 + n / 0x1000 % 0x40, 0x80 + n / 0x40 % 0x40, 0x80 + n % 0x40]

/-- UTF-8 encoding of a character sequence (the byte representation of a Rust `str`). -/
def utf8Encode (s : List Char) : List Nat :=
  (s.map utf8EncodeChar).join

/-- Strict UTF-8 decoding of a byte list; `none` when the bytes are not a
well-formed encoding (in particular when a slice starts or ends in the middle
of a multi-byte character). -/
def utf8Decode : List Nat → Option (List Char)
  | [] => some []
  | b :: rest =>
    if b < 0x80 then (utf8Decode rest).map (Char.ofNat b :: ·)
    else if b < 0xC0 then none
    else if b < 0xE0 then
      match rest with
      | b1 :: rest2 =>
        if 0x80 ≤ b1 ∧ b1 < 0xC0 ∧ 0x80 ≤ (b - 0xC0) * 0x40 + (b1 - 0x80) then
          (utf8Decode rest2).map (Char.ofNat ((b - 0xC0) * 0x40 + (b1 - 0x80)) :: ·)
        else none
      | [] => none
    else if b < 0xF0 then
      match rest with
      | b1 :: b2 :: rest2 =>
        if 0x80 ≤ b1 ∧ b1 < 0xC0 ∧ 0x80 ≤ b2 ∧ b2 < 0xC0 ∧
            0x800 ≤ (b - 0xE0) * 0x1000 + (b1 - 0x80) * 0x40 + (b2 - 0x80) then
          (utf8Decode rest2).map
            (Char.ofNat ((b - 0xE0) * 0x1000 + (b1 - 0x80) * 0x40 + (b2 - 0x80)) :: ·)
        else none
      | _ => none
    else if b < 0xF8 then
      match rest with
      | b1 :: b2 :: b3 :: rest2 =>
        if 0x80 ≤ b1 ∧ b1 < 0xC0 ∧ 0x80 ≤ b2 ∧ b2 < 0xC0 ∧ 0x80 ≤ b3 ∧ b3 < 0xC0 ∧
            0x10000 ≤ (b - 0xF0) * 0x40000 + (b1 - 0x80) * 0x1000 + (b2 - 0x80) * 0x40 + (b3 - 0x80) then
          (utf8Decode rest2).map
            (Char.ofNat ((b - 0xF0) * 0x40000 + (b1 - 0x80) * 0x1000 + (b2 - 0x80) * 0x40 + (b3 - 0x80)) :: ·)
        else none
      | _ => none
    else none

/-- Model of the Rust byte slice `&text[start..start+len]` of a UTF-8 string,
decoded back to characters; `none` models the Rust panic on an out-of-range
slice or on a slice boundary that falls inside a multi-byte character. -/
def byteSlice (text : List Char) (start len : Nat) : Option (List Char) :=
  let bytes := utf8Encode text
  if start + len ≤ bytes.length then utf8Decode ((bytes.drop start).take len) else none

/-- Does `needle` begin `hay`? -/
def beginsWith : List Char → List Char → Bool
  | [], _ => true
  | _ :: _, [] => false
  | a :: as, b :: bs => a == b && beginsWith as bs

/-- Does `needle` occur contiguously inside `hay`? -/
def containsSub (needle : List Char) : List Char → Bool
  | [] => needle.isEmpty
  | b :: rest => beginsWith needle (b :: rest) || containsSub needle rest

/-- Numeric value of an ASCII digit. -/
def digitVal (c : Char) : Option Nat :=
  if decide ('0' ≤ c) && decide (c ≤ '9') then some (c.toNat - '0'.toNat) else none

/-- The natural number denoted by a non-empty digit string; `none` on any
non-digit (mirrors the digits path of Rust's integer `FromStr`). -/
def parseDigits : List Char → Option Nat
  | [] => none
  | cs => cs.foldl (fun acc c => do
      let a ← acc
      let d ← digitVal c
      pure (a * 10 + d)) (some 0)

/-- Model of Rust `str::parse::<i64>`: optional sign, digits, `i64` range check. -/
def parse_i64 (cs : List Char) : Option Int :=
  match cs with
  | '+' :: rest => do
    let n ← parseDigits rest
    if n ≤ 9223372036854775807 then pure (Int.ofNat n) else none
  | '-' :: rest => do
    let n ← parseDigits rest
    if n ≤ 9223372036854775808 then pure (-(Int.ofNat n)) else none
  | _ => do
    let n ← parseDigits cs
    if n ≤ 9223372036854775807 then pure (Int.ofNat n) else none

/-- Model of Rust `str::parse::<f64>` on the lexemes the lexer can produce
(digits with at most one dot): the exact rational value.  `f64` rounding is
not modelled; no theorem below depends on float arithmetic. -/
def parse_f64 (cs : List Char) : Option Rat :=
  let intPart := cs.takeWhile (fun c => c ≠ '.')
  let rest := cs.dropWhile (fun c => c ≠ '.')
  match rest with
  | [] => (parseDigits intPart).map (fun n => (n : Rat))
  | _ :: frac =>
    if frac.all (fun c => decide ('0' ≤ c) && decide (c ≤ '9')) then
      match parseDigits intPart with
      | none => none
      | some ip =>
        let fracVal := frac.foldl (fun acc c => acc * 10 + (c.toNat - '0'.toNat)) 0
        some ((ip : Rat) + (fracVal : Rat) / ((10 : Rat) ^ frac.length))
    else none

namespace Couch

/-- `couch-lang/lexer/src/token_variant.rs`: the token kinds. -/
inductive TokenVariant where
  | LetKeyword | MutKeyword | FnKeyword | ReturnKeyword | Identifier
  | LParenthesis | RParenthesis | LBrace | RBrace
  | Equal | PlusEqual | Plus | MinusEqual | Minus | AsteriskEqual | Asterisk
  | SlashEqual | Slash | Semicolon | Integer | Float | Error
  | Exclamation | ExclamationEqual | DoubleEqual
  deriving DecidableEq

/-- Rust `{:?}`/`{:#?}` formatting of a `TokenVariant` (fieldless variants
print as their name under both). -/
def TokenVariant.debugFmt : TokenVariant → String
  | .LetKeyword => "LetKeyword"
  | .MutKeyword => "MutKeyword"
  | .FnKeyword => "FnKeyword"
  | .ReturnKeyword => "ReturnKeyword"
  | .Identifier => "Identifier"
  | .LParenthesis => "LParenthesis"
  | .RParenthesis => "RParenthesis"
  | .LBrace => "LBrace"
  | .RBrace => "RBrace"
  | .Equal => "Equal"
  | .PlusEqual => "PlusEqual"
  | .Plus => "Plus"
  | .MinusEqual => "MinusEqual"
  | .Minus => "Minus"
  | .AsteriskEqual => "AsteriskEqual"
  | .Asterisk => "Asterisk"
  | .SlashEqual => "SlashEqual"
  | .Slash => "Slash"
  | .Semicolon => "Semicolon"
  | .Integer => "Integer"
  | .Float => "Float"
  | .Error => "Error"
  | .Exclamation => "Exclamation"
  | .ExclamationEqual => "ExclamationEqual"
  | .DoubleEqual => "DoubleEqual"

/-- `couch-lang/lexer/src/lib.rs` `Token`. -/
structure Token where
  index : Nat
  length : Nat
  variant : TokenVariant
  line : Nat
  column : Nat
  deriving DecidableEq

/-- `couch-lang/lexer/src/indexed_char_iterator.rs` `IndexedChar`. -/
structure IChar where
  value : Char
  index : Nat
  line : Nat
  column : Nat
  deriving DecidableEq

/-- `IndexedCharIterator`: pair every character with its running index (one
per character, not per byte), line and column. -/
def indexed_chars : List Char → Nat → Nat → Nat → List IChar
  | [], _, _, _ => []
  | c :: cs, i, line, col =>
    ⟨c, i, line, col⟩ ::
      (if c = '\n' then indexed_chars cs (i + 1) (line + 1) 1
       else indexed_chars cs (i + 1) line (col + 1))

/-- `Lexer::make_single_token`; the caller has already peeked `c`. -/
def make_single_token (variant : TokenVariant) (c : IChar) (rest : List IChar) :
    Token × List IChar :=
  ({ index := c.index, length := utf8Len c.value, variant := variant,
     line := c.line, column := c.column }, rest)

/-- Identifier continuation characters (`'0'..='9' | 'a'..='z' | 'A'..='Z' | '_'`). -/
def ident_char (c : Char) : Bool :=
  (decide ('0' ≤ c) && decide (c ≤ '9')) || (decide ('a' ≤ c) && decide (c ≤ 'z')) ||
    (decide ('A' ≤ c) && decide (c ≤ 'Z')) || c = '_'

/-- Identifier start characters (`'a'..='z' | 'A'..='Z' | '_'`). -/
def ident_start (c : Char) : Bool :=
  (decide ('a' ≤ c) && decide (c ≤ 'z')) || (decide ('A' ≤ c) && decide (c ≤ 'Z')) || c = '_'

/-- The identifier-collection loop of `make_keyword_or_identifier`. -/
def take_ident : List IChar → List Char × List IChar
  | [] => ([], [])
  | c :: rest =>
    if ident_char c.value then
      let (cs, rem) := take_ident rest
      (c.value :: cs, rem)
    else ([], c :: rest)

/-- The keyword table of `make_keyword_or_identifier`. -/
def keyword_variant (text : List Char) : TokenVariant :=
  if text = "fn".toList then .FnKeyword
  else if text = "let".toList then .LetKeyword
  else if text = "mut".toList then .MutKeyword
  else if text = "return".toList then .ReturnKeyword
  else .Identifier

/-- `Lexer::make_keyword_or_identifier`; the token length is `text.len()`,
the UTF-8 byte length of the collected text. -/
def make_keyword_or_identifier (c : IChar) (rest : List IChar) : Token × List IChar :=
  let res := take_ident rest
  let text := c.value :: res.1
  ({ variant := keyword_variant text, index := c.index, length := (utf8Encode text).length,
     line := c.line, column := c.column }, res.2)

/-- The digit/dot loop of `Lexer::make_number`; returns the accumulated
length (in characters), the token variant and the remaining input. -/
def number_loop : List IChar → Nat → Bool → Nat × TokenVariant × List IChar
  | [], length, dotSeen => (length, if dotSeen then .Float else .Integer, [])
  | c :: rest, length, dotSeen =>
    if decide ('0' ≤ c.value) && decide (c.value ≤ '9') then
      number_loop rest (length + 1) dotSeen
    else if c.value = '.' then
      if dotSeen then (length + 1, .Error, rest)
      else number_loop rest (length + 1) true
    else (length, if dotSeen then .Float else .Integer, c :: rest)

/-- `Lexer::make_number`; the caller has already peeked the first digit `c`. -/
def make_number (c : IChar) (rest : List IChar) : Token × List IChar :=
  let res := number_loop rest 1 false
  ({ index := c.index, length := res.1, variant := res.2.1,
     line := c.line, column := c.column }, res.2.2)

/-- `Lexer::make_single_or_double_token`. -/
def make_single_or_double_token (single : TokenVariant) (second : Char)
    (double : TokenVariant) (c : IChar) (rest : List IChar) : Token × List IChar :=
  match rest with
  | c2 :: rest2 =>
    if c2.value = second then
      ({ index := c.index, column := c.column, line := c.line, length := 2,
         variant := double }, rest2)
    else
      ({ index := c.index, column := c.column, line := c.line, length := 1,
         variant := single }, c2 :: rest2)
  | [] =>
    ({ index := c.index, column := c.column, line := c.line, length := 1,
       variant := single }, [])

/-- The `/* ... */` consumption loop of `make_comment_or_slash`: `some rem`
when a closing `*/` is found (with `rem` the input after it), `none` when
the input ends first (the `?` in the Rust loop, which ends the token
stream). -/
def block_comment_loop : List IChar → Option (List IChar)
  | [] => none
  | c :: rest =>
    if c.value = '*' then
      match rest with
      | [] => none
      | c2 :: rest2 => if c2.value = '/' then some rest2 else block_comment_loop (c2 :: rest2)
    else block_comment_loop rest

/-- The `//` consumption loop of `make_comment_or_slash`: stops at a newline
without consuming it, `none` at end of input. -/
def line_comment_loop : List IChar → Option (List IChar)
  | [] => none
  | c :: rest => if c.value = '\n' then some (c :: rest) else line_comment_loop rest

/-- Result of `make_comment_or_slash`: a token, or `cont rem` (a comment was
consumed and lexing continues at `rem`, Rust's `break self.make_token()`),
or `eofEnd` (the input ended inside the comment and the token stream ends). -/
inductive CommentResult where
  | tok (t : Token) (rest : List IChar)
  | cont (rest : List IChar)
  | eofEnd
  deriving DecidableEq

/-- `Lexer::make_comment_or_slash`; the caller has already peeked `c` (a `/`). -/
def make_comment_or_slash (c : IChar) (rest : List IChar) : CommentResult :=
  let single := (make_single_token .Slash c rest).1
  match rest with
  | c2 :: rest2 =>
    if c2.value = '*' then
      match block_comment_loop rest2 with
      | some rem => .cont rem
      | none => .eofEnd
    else if c2.value = '/' then
      match line_comment_loop rest2 with
      | some rem => .cont rem
      | none => .eofEnd
    else if c2.value = '=' then
      .tok { index := single.index, column := single.column, line := single.line,
             length := 2, variant := .SlashEqual } rest2
    else .tok single (c2 :: rest2)
  | [] => .tok single []


/-- `Lexer::make_token`: produce the next token, or `none` at the end of
the token stream (which the unterminated-comment branches also reach).  The
recursion (whitespace skipping and comment continuation) consumes at least
one character per step, so the `l.length + 1` fuel supplied by `make_token`
below never runs out and the fuel-exhaustion `none` is unreachable. -/
def make_token_fuel : Nat → List IChar → Option (Token × List IChar)
  | 0, _ => none
  | fuel + 1, l =>
    match l with
    | [] => none
    | c :: rest =>
      if decide ('0' ≤ c.value) && decide (c.value ≤ '9') then some (make_number c rest)
      else if c.value = ' ' ∨ c.value = '\n' then make_token_fuel fuel rest
      else if c.value = '=' then some (make_single_or_double_token .Equal '=' .DoubleEqual c rest)
      else if c.value = ';' then some (make_single_token .Semicolon c rest)
      else if c.value = '(' then some (make_single_token .LParenthesis c rest)
      else if c.value = ')' then some (make_single_token .RParenthesis c rest)
      else if c.value = '\x7b' then some (make_single_token .LBrace c rest)
      else if c.value = '\x7d' then some (make_single_token .RBrace c rest)
      else if c.value = '-' then some (make_single_or_double_token .Minus '=' .MinusEqual c rest)
      else if c.value = '!' then
        some (make_single_or_double_token .Exclamation '=' .ExclamationEqual c rest)
      else if c.value = '*' then
        some (make_single_or_double_token .Asterisk '=' .AsteriskEqual c rest)
      else if c.value = '+' then some (make_single_or_double_token .Plus '=' .PlusEqual c rest)
      else if ident_start c.value then some (make_keyword_or_identifier c rest)
      else if c.value = '/' then
        match make_comment_or_slash c rest with
        | .tok t r => some (t, r)
        | .cont r => make_token_fuel fuel r
        | .eofEnd => none
      else
        some ({ variant := .Error, index := c.index, length := utf8Len c.value,
                line := c.line, column := c.column }, rest)

/-- `Lexer::make_token` with sufficient fuel. -/
def make_token (l : List IChar) : Option (Token × List IChar) :=
  make_token_fuel (l.length + 1) l

/-- The lexer's `Iterator` instance: collect every token of the input.
Each emitted token consumes at least one character, so `l.length + 1`
iterations always suffice and the fuel-exhaustion `[]` is unreachable. -/
def tokenize_fuel : Nat → List IChar → List Token
  | 0, _ => []
  | fuel + 1, l =>
    match make_token l with
    | some (t, r) => t :: tokenize_fuel fuel r
    | none => []

/-- Collect every token of the input with sufficient fuel. -/
def tokenize (l : List IChar) : List Token :=
  tokenize_fuel (l.length + 1) l

/-- `Lexer::new` followed by collecting the iterator: lex a source text. -/
def lex (s : List Char) : List Token :=
  tokenize (indexed_chars s 0 1 1)

/-- `couch-lang/parser/src/lib.rs` `Position`. -/
structure Position where
  index : Nat
  line : Nat
  column : Nat
  deriving DecidableEq

/-- `couch-lang/parser/src/lib.rs` `Node<T>`. -/
structure PNode (α : Type) where
  value : α
  position : Position
  deriving DecidableEq

/-- `From<&Token> for Position`. -/
def Position.ofToken (token : Token) : Position :=
  { index := token.index, column := token.column, line := token.line }

/-- `UnaryVariant`. -/
inductive UnaryVariant where
  | NegateNumber | NegateBool
  deriving DecidableEq

/-- `BinaryVariant`. -/
inductive BinaryVariant where
  | Addition | Subtraction | Multiplication | Division | Equal | NotEqual
  deriving DecidableEq

/-- `AssignmentVariant`. -/
inductive AssignmentVariant where
  | Base | Addition | Subtraction | Multiplication | Division
  deriving DecidableEq

/-- `couch-lang/parser/src/lib.rs` `Expression`; `f64` literals carry the
exact rational the literal denotes. -/
inductive Expression where
  | Integer (v : Int)
  | Float (v : Rat)
  | Call (subject : PNode Expression) (arguments : List (PNode Expression))
  | Identifier (s : String)
  | Unary (subject : PNode Expression) (variant : UnaryVariant)
  | Binary (left : PNode Expression) (right : PNode Expression) (variant : BinaryVariant)
  | Error (message : String)

/-- `couch-lang/parser/src/lib.rs` `Statement`. -/
inductive Statement where
  | Let (mutable : Bool) (identifier : PNode Expression) (value : PNode Expression)
  | Return (value : Option (PNode Expression))
  | Assignment (left : PNode Expression) (right : PNode Expression)
      (variant : AssignmentVariant)
  | Expression (e : PNode Expression)
  | Error (message : String)

/-- `couch-lang/parser/src/lib.rs` `Parameter`. -/
inductive Parameter where
  | Item (mutable : Bool) (identifier : PNode Expression)
  | Error (message : String)

/-- The parser state: the peekable token iterator and the source text. -/
structure ParserSt where
  iter : List Token
  text : List Char
  deriving DecidableEq

/-- The fallback position used by the `try_peek_or_error!` macro in
`error_helper.rs` at end of input: the text's byte length, its line count
(`split('\n').count()`), and the byte length of the last line. -/
def eof_position (text : List Char) : Position :=
  { index := (utf8Encode text).length,
    line := (text.splitOn '\n').length,
    column := (utf8Encode ((text.splitOn '\n').getLastD [])).length }

/-- The assignment-operator table in `parse_assignment`. -/
def assignment_variant : TokenVariant → Option AssignmentVariant
  | .Equal => some .Base
  | .AsteriskEqual => some .Multiplication
  | .MinusEqual => some .Subtraction
  | .PlusEqual => some .Addition
  | .SlashEqual => some .Division
  | _ => none

mutual

/-- `Parser::parse_expression`.  All parser functions take fuel (the source
recursion is unbounded); `none` models a Rust panic (a failing `unwrap` on
the token-text slice or on literal parsing) and, artificially, fuel
exhaustion, which no theorem's concrete fuel reaches. -/
def parse_expression : Nat → ParserSt → Option (PNode Expression × ParserSt)
  | 0, _ => none
  | fuel + 1, p => parse_equality fuel p

/-- `Parser::parse_equality`: right-recursive equality level. -/
def parse_equality : Nat → ParserSt → Option (PNode Expression × ParserSt)
  | 0, _ => none
  | fuel + 1, p => do
    let (left, p) ← parse_add_subtract fuel p
    match p.iter with
    | [] => some (left, p)
    | operand :: restTokens =>
      match operand.variant with
      | .DoubleEqual => do
        let (right, p') ← parse_equality fuel { p with iter := restTokens }
        some (⟨.Binary left right .Equal, left.position⟩, p')
      | .ExclamationEqual => do
        let (right, p') ← parse_equality fuel { p with iter := restTokens }
        some (⟨.Binary left right .NotEqual, left.position⟩, p')
      | _ => some (left, p)

/-- `Parser::parse_add_subtract`: right-recursive additive level. -/
def parse_add_subtract : Nat → ParserSt → Option (PNode Expression × ParserSt)
  | 0, _ => none
  | fuel + 1, p => do
    let (left, p) ← parse_multiply_divide fuel p
    match p.iter with
    | [] => some (left, p)
    | operand :: restTokens =>
      match operand.variant with
      | .Plus => do
        let (right, p') ← parse_add_subtract fuel { p with iter := restTokens }
        some (⟨.Binary left right .Addition, left.position⟩, p')
      | .Minus => do
        let (right, p') ← parse_add_subtract fuel { p with iter := restTokens }
        some (⟨.Binary left right .Subtraction, left.position⟩, p')
      | _ => some (left, p)

/-- `Parser::parse_multiply_divide`: right-recursive multiplicative level. -/
def parse_multiply_divide : Nat → ParserSt → Option (PNode Expression × ParserSt)
  | 0, _ => none
  | fuel + 1, p => do
    let (left, p) ← parse_unary fuel p
    match p.iter with
    | [] => some (left, p)
    | operand :: restTokens =>
      match operand.variant with
      | .Asterisk => do
        let (right, p') ← parse_multiply_divide fuel { p with iter := restTokens }
        some (⟨.Binary left right .Multiplication, left.position⟩, p')
      | .Slash => do
        let (right, p') ← parse_multiply_divide fuel { p with iter := restTokens }
        some (⟨.Binary left right .Division, left.position⟩, p')
      | _ => some (left, p)

/-- `Parser::parse_unary`. -/
def parse_unary : Nat → ParserSt → Option (PNode Expression × ParserSt)
  | 0, _ => none
  | fuel + 1, p =>
    match p.iter with
    | [] =>
      some (⟨.Error "expected token, got end of file", eof_position p.text⟩, p)
    | token :: restTokens =>
      match token.variant with
      | .Minus => do
        let (subject, p') ← parse_unary fuel { p with iter := restTokens }
        some (⟨.Unary subject .NegateNumber, Position.ofToken token⟩, p')
      | .Exclamation => do
        let (subject, p') ← parse_unary fuel { p with iter := restTokens }
        some (⟨.Unary subject .NegateBool, Position.ofToken token⟩, p')
      | _ => parse_operand fuel p

/-- `Parser::parse_operand`.  On a token that cannot begin an operand the
source formats an error message but wraps it in `Expression::Identifier`,
not `Expression::Error`.  `none` models the `unwrap` panics: the empty-iter
`peek().unwrap()`, an out-of-range byte slice of the source text, and a
literal that `parse::<i64>` rejects. -/
def parse_operand : Nat → ParserSt → Option (PNode Expression × ParserSt)
  | 0, _ => none
  | _ + 1, p =>
    match p.iter with
    | [] => none
    | token :: restTokens =>
      match token.variant with
      | .Identifier => do
        let sliced ← byteSlice p.text token.index token.length
        some (⟨.Identifier (String.mk sliced), Position.ofToken token⟩,
              { p with iter := restTokens })
      | .Integer => do
        let sliced ← byteSlice p.text token.index token.length
        let value ← parse_i64 sliced
        some (⟨.Integer value, Position.ofToken token⟩, { p with iter := restTokens })
      | .Float => do
        let sliced ← byteSlice p.text token.index token.length
        let value ← parse_f64 sliced
        some (⟨.Float value, Position.ofToken token⟩, { p with iter := restTokens })
      | other =>
        some (⟨.Identifier ("unexpected operand " ++ other.debugFmt), Position.ofToken token⟩,
              { p with iter := restTokens })

end

/-- `Parser::parse_parameter`. -/
def parse_parameter (fuel : Nat) (p : ParserSt) : Option (PNode Parameter × ParserSt) :=
  match p.iter with
  | [] => some (⟨.Error "expected token, got end of file", eof_position p.text⟩, p)
  | next :: restTokens =>
    let position := Position.ofToken next
    let mutable := next.variant = .MutKeyword
    let p := if mutable then { p with iter := restTokens } else p
    match p.iter with
    | [] => some (⟨.Error "expected 'Identifier', got end of file", eof_position p.text⟩, p)
    | _ :: _ => do
      let (identifier, p) ← parse_operand fuel p
      some (⟨.Item mutable identifier, position⟩, p)

/-- `Parser::parse_return`. -/
def parse_return (fuel : Nat) (p : ParserSt) : Option (PNode Statement × ParserSt) :=
  match p.iter with
  | [] => none
  | keyword :: rest1 =>
    let position := Position.ofToken keyword
    let p := { p with iter := rest1 }
    match p.iter with
    | [] => some (⟨.Error "expected 'Semicolon', got end of file", eof_position p.text⟩, p)
    | token :: rest2 =>
      match token.variant with
      | .Semicolon => some (⟨.Return none, position⟩, { p with iter := rest2 })
      | _ => do
        let (expr, p) ← parse_expression fuel p
        match p.iter with
        | [] =>
          some (⟨.Error "expected 'Semicolon', got end of file", eof_position p.text⟩, p)
        | token2 :: rest3 =>
          if token2.variant = .Semicolon then
            some (⟨.Return (some expr), position⟩, { p with iter := rest3 })
          else
            some (⟨.Error ("expected 'Semicolon', got '" ++ token2.variant.debugFmt ++ "'"),
                   Position.ofToken token2⟩, p)

/-- `Parser::parse_let`. -/
def parse_let (fuel : Nat) (p : ParserSt) : Option (PNode Statement × ParserSt) :=
  match p.iter with
  | [] => none
  | keyword :: rest1 =>
    let position : Position :=
      { index := keyword.index, line := keyword.line, column := keyword.column }
    let p := { p with iter := rest1 }
    do
      let (param, p) ← parse_parameter fuel p
      match param.value with
      | .Error message => some (⟨.Error message, param.position⟩, p)
      | .Item mutable identifier =>
        match p.iter with
        | [] => some (⟨.Error "expected 'Equal', got end of file", eof_position p.text⟩, p)
        | next :: rest2 =>
          if next.variant = .Equal then do
            let p := { p with iter := rest2 }
            match p.iter with
            | [] =>
              some (⟨.Error "expected token, got end of file", eof_position p.text⟩, p)
            | _ :: _ => do
              let (value, p) ← parse_expression fuel p
              match p.iter with
              | [] =>
                some (⟨.Error "expected 'Semicolon', got end of file", eof_position p.text⟩, p)
              | next2 :: rest3 =>
                if next2.variant = .Semicolon then
                  some (⟨.Let mutable identifier value, position⟩, { p with iter := rest3 })
                else
                  some (⟨.Error ("expected 'Semicolon', got '" ++ next2.variant.debugFmt ++ "'"),
                         Position.ofToken next2⟩, p)
          else
            some (⟨.Error ("expected 'Equal', got '" ++ next.variant.debugFmt ++ "'"),
                   Position.ofToken next⟩, p)

/-- `Parser::parse_assignment` (also produces plain expression statements). -/
def parse_assignment (fuel : Nat) (p : ParserSt) : Option (PNode Statement × ParserSt) := do
  let (left, p) ← parse_expression fuel p
  match p.iter with
  | [] => some (⟨.Error "expected token, got end of file", eof_position p.text⟩, p)
  | operand :: restTokens =>
    match assignment_variant operand.variant with
    | some variant => do
      let (right, p') ← parse_expression fuel { p with iter := restTokens }
      match p'.iter with
      | [] =>
        some (⟨.Error "expected token, got end of file", eof_position p'.text⟩, p')
      | semicolon :: rest2 =>
        if semicolon.variant = .Semicolon then
          some (⟨.Assignment left right variant, left.position⟩, { p' with iter := rest2 })
        else
          some (⟨.Error ("expected 'Semicolon', got '" ++ semicolon.variant.debugFmt ++ "'"),
                 Position.ofToken semicolon⟩, p')
    | none =>
      if operand.variant = .Semicolon then
        some (⟨.Expression left, left.position⟩, { p with iter := restTokens })
      else
        some (⟨.Error ("expected 'Semicolon', got '" ++ operand.variant.debugFmt ++ "'"),
               Position.ofToken operand⟩, p)

/-- `Parser::parse_statement`; `none` models the `todo!("parse fn")`. -/
def parse_statement (fuel : Nat) (p : ParserSt) : Option (PNode Statement × ParserSt) :=
  match p.iter with
  | [] => some (⟨.Error "expected token, got end of file", eof_position p.text⟩, p)
  | keyword :: _ =>
    match keyword.variant with
    | .ReturnKeyword => parse_return fuel p
    | .LetKeyword => parse_let fuel p
    | .FnKeyword => none
    | _ => parse_assignment fuel p

/-- `Parser::parse_statements`: parse until the token iterator is empty. -/
def parse_statements : Nat → ParserSt → Option (List (PNode Statement) × ParserSt)
  | 0, _ => none
  | fuel + 1, p =>
    match p.iter with
    | [] => some ([], p)
    | _ :: _ => do
      let (stmt, p) ← parse_statement fuel p
      let (rest, p) ← parse_statements fuel p
      some (stmt :: rest, p)

/-- `couch-lang/evaluator/src/value.rs` `Value`; float payloads are exact
rationals (see the header note). -/
inductive Value where
  | Integer (v : Int)
  | Float (v : Rat)
  | Bool (b : Bool)
  | Error (message : String) (line : Nat) (column : Nat)
  deriving DecidableEq

/-- The `Display` impl in `value.rs`: the type tag of a value. -/
def value_display : Value → String
  | .Integer _ => "integer"
  | .Float _ => "float"
  | .Bool _ => "bool"
  | .Error _ _ _ => "error"

/-- Decimal digits of a proper fraction `num/den`, used only by the debug
formatter below. -/
def frac_digits : Nat → Nat → Nat → List Char
  | 0, _, _ => []
  | limit + 1, num, den =>
    if num = 0 then []
    else
      Char.ofNat ('0'.toNat + num * 10 / den) :: frac_digits limit (num * 10 % den) den

/-- Decimal rendering of a rational float payload, approximating Rust's
`f64` `Debug` output; no theorem depends on this rendering. -/
def rat_debug (q : Rat) : String :=
  let sign := if q < 0 then "-" else ""
  let n := q.num.natAbs
  let intPart := n / q.den
  let fracNum := n % q.den
  let frac := if fracNum = 0 then "0" else String.mk (frac_digits 17 fracNum q.den)
  sign ++ toString intPart ++ "." ++ frac

/-- Rust `{:#?}` formatting of a `Value`, used in the unary-operator error
messages; no theorem depends on the exact rendering. -/
def value_debug_alt : Value → String
  | .Integer v => "Integer(\n    " ++ toString v ++ ",\n)"
  | .Float v => "Float(\n    " ++ rat_debug v ++ ",\n)"
  | .Bool b => "Bool(\n    " ++ (if b then "true" else "false") ++ ",\n)"
  | .Error m l c =>
    "Error \x7b\n    message: \"" ++ m ++ "\",\n    line: " ++ toString l ++
      ",\n    column: " ++ toString c ++ ",\n\x7d"

/-- `implement_operator!(Add, add, +)`: defined on integer/integer and
float/float, and otherwise an `Err` naming both operand type tags. -/
def value_add : Value → Value → Option (Except String Value)
  | .Integer a, .Integer b => some (.ok (.Integer (a + b)))
  | .Float a, .Float b => some (.ok (.Float (a + b)))
  | a, b =>
    some (.error ("no implementation exists for " ++ value_display a ++ " + " ++ value_display b))

/-- `implement_operator!(Sub, sub, -)`. -/
def value_sub : Value → Value → Option (Except String Value)
  | .Integer a, .Integer b => some (.ok (.Integer (a - b)))
  | .Float a, .Float b => some (.ok (.Float (a - b)))
  | a, b =>
    some (.error ("no implementation exists for " ++ value_display a ++ " - " ++ value_display b))

/-- `implement_operator!(Mul, mul, *)`. -/
def value_mul : Value → Value → Option (Except String Value)
  | .Integer a, .Integer b => some (.ok (.Integer (a * b)))
  | .Float a, .Float b => some (.ok (.Float (a * b)))
  | a, b =>
    some (.error ("no implementation exists for " ++ value_display a ++ " * " ++ value_display b))

/-- `implement_operator!(Div, div, /)`; `i64` division panics on a zero
divisor (`none`); Rust `/` on `i64` truncates toward zero (`Int.tdiv`). -/
def value_div : Value → Value → Option (Except String Value)
  | .Integer a, .Integer b =>
    if b = 0 then none else some (.ok (.Integer (Int.tdiv a b)))
  | .Float a, .Float b => some (.ok (.Float (a / b)))
  | a, b =>
    some (.error ("no implementation exists for " ++ value_display a ++ " / " ++ value_display b))

/-- `implement_operator_assign!(AddAssign, add_assign, +=)`: panics
(`none`) on any operand-kind mismatch. -/
def value_add_assign : Value → Value → Option Value
  | .Integer a, .Integer b => some (.Integer (a + b))
  | .Float a, .Float b => some (.Float (a + b))
  | _, _ => none

/-- `implement_operator_assign!(SubAssign, sub_assign, -=)`. -/
def value_sub_assign : Value → Value → Option Value
  | .Integer a, .Integer b => some (.Integer (a - b))
  | .Float a, .Float b => some (.Float (a - b))
  | _, _ => none

/-- `implement_operator_assign!(MulAssign, mul_assign, *=)`. -/
def value_mul_assign : Value → Value → Option Value
  | .Integer a, .Integer b => some (.Integer (a * b))
  | .Float a, .Float b => some (.Float (a * b))
  | _, _ => none

/-- `implement_operator_assign!(DivAssign, div_assign, /=)`; division by
integer zero panics (`none`). -/
def value_div_assign : Value → Value → Option Value
  | .Integer a, .Integer b => if b = 0 then none else some (.Integer (Int.tdiv a b))
  | .Float a, .Float b => some (.Float (a / b))
  | _, _ => none

/-- `couch-lang/evaluator/src/lib.rs` `IdentifierType`. -/
inductive IdentifierType where
  | Value (mutable : Bool) (value : Value)
  | Function (value : PNode Statement)

/-- The evaluator's `HashMap<String, IdentifierType>`, modelled as an
association list with at most one entry per key. -/
abbrev Context := List (String × IdentifierType)

/-- `HashMap::get`. -/
def ctx_get (m : Context) (k : String) : Option IdentifierType :=
  (m.find? (fun kv => kv.1 == k)).map (·.2)

/-- `HashMap::insert` (and writes through `get_mut`): replace the entry
for the key or add one. -/
def ctx_insert (m : Context) (k : String) (v : IdentifierType) : Context :=
  if (m.find? (fun kv => kv.1 == k)).isSome then
    m.map (fun kv => if kv.1 == k then (k, v) else kv)
  else m ++ [(k, v)]

mutual

/-- `Evaluator::evaluate_expression`; `none` models the `todo!()`s (calls,
function identifiers) and panics inside the operator impls; fuel is
decremented per recursion and no theorem's concrete fuel runs out. -/
def evaluate_expression :
    Nat → PNode Expression → Context → Context → Option Value
  | 0, _, _, _ => none
  | fuel + 1, node, outer_context, inner_context =>
    match node.value with
    | .Integer v => some (.Integer v)
    | .Float v => some (.Float v)
    | .Unary subject variant => do
      let evaluated_subject ← evaluate_expression fuel subject outer_context inner_context
      match variant, evaluated_subject with
      | .NegateNumber, .Integer v => some (.Integer (-v))
      | .NegateNumber, .Float v => some (.Float (-v))
      | .NegateBool, .Bool v => some (.Bool (!v))
      | .NegateBool, .Integer v =>
        some (.Error ("expected bool, got " ++ value_debug_alt (.Integer v))
          node.position.line node.position.column)
      | .NegateBool, .Float v =>
        some (.Error ("expected bool, got " ++ value_debug_alt (.Float v))
          node.position.line node.position.column)
      | .NegateNumber, .Bool v =>
        some (.Error ("expected number, got " ++ value_debug_alt (.Bool v))
          node.position.line node.position.column)
      | _, .Error message line column => some (.Error message line column)
    | .Binary _ _ _ =>
      evaluate_binary_expression fuel node outer_context inner_context
    | .Call _ _ => none
    | .Identifier q =>
      match (ctx_get inner_context q).orElse (fun _ => ctx_get outer_context q) with
      | some (.Value _ value) => some value
      | some (.Function _) => none
      | none =>
        some (.Error ("identifier " ++ q ++ " is not yet given value")
          node.position.line node.position.column)
    | .Error message => some (.Error message node.position.line node.position.column)

/-- `Evaluator::evaluate_binary_expression`; dispatch per the source's
`match variant`: Addition→`add`, Subtraction→`div`, Multiplication→`mul`,
Division→`sub` (the sub/div swap is in the source).  A non-`Binary` node
panics (`none`). -/
def evaluate_binary_expression :
    Nat → PNode Expression → Context → Context → Option Value
  | 0, _, _, _ => none
  | fuel + 1, node, outer_context, inner_context =>
    match node.value with
    | .Binary left right variant =>
      match variant with
      | .Addition => do
        let l ← evaluate_expression fuel left outer_context inner_context
        let r ← evaluate_expression fuel right outer_context inner_context
        let res ← value_add l r
        match res with
        | .ok v => some v
        | .error message => some (.Error message node.position.line node.position.column)
      | .Subtraction => do
        let l ← evaluate_expression fuel left outer_context inner_context
        let r ← evaluate_expression fuel right outer_context inner_context
        let res ← value_div l r
        match res with
        | .ok v => some v
        | .error message => some (.Error message node.position.line node.position.column)
      | .Multiplication => do
        let l ← evaluate_expression fuel left outer_context inner_context
        let r ← evaluate_expression fuel right outer_context inner_context
        let res ← value_mul l r
        match res with
        | .ok v => some v
        | .error message => some (.Error message node.position.line node.position.column)
      | .Division => do
        let l ← evaluate_expression fuel left outer_context inner_context
        let r ← evaluate_expression fuel right outer_context inner_context
        let res ← value_sub l r
        match res with
        | .ok v => some v
        | .error message => some (.Error message node.position.line node.position.column)
      | .Equal => do
        let l ← evaluate_expression fuel left outer_context inner_context
        let r ← evaluate_expression fuel right outer_context inner_context
        some (.Bool (l == r))
      | .NotEqual => do
        let l ← evaluate_expression fuel left outer_context inner_context
        let r ← evaluate_expression fuel right outer_context inner_context
        some (.Bool (l != r))
    | _ => none

end

/-- The body of the `match identifier_ref` in `evaluate_statement`'s
assignment arm: mutate the binding (through `get_mut`) when it is a mutable
value, otherwise produce the corresponding error value; the outer `none`
is the `implement_operator_assign!` panic. -/
def assign_value (idt : IdentifierType) (right : Value) (variant : AssignmentVariant)
    (identifier : String) (position : Position) :
    Option (Option IdentifierType × Option Value) :=
  match idt with
  | .Value mutable value =>
    if mutable then
      match variant with
      | .Base => some (some (.Value mutable right), none)
      | .Addition =>
        (value_add_assign value right).map (fun v => (some (.Value mutable v), none))
      | .Subtraction =>
        (value_sub_assign value right).map (fun v => (some (.Value mutable v), none))
      | .Multiplication =>
        (value_mul_assign value right).map (fun v => (some (.Value mutable v), none))
      | .Division =>
        (value_div_assign value right).map (fun v => (some (.Value mutable v), none))
    else
      some (none,
        some (.Error ("identifier " ++ identifier ++ " is not mutable")
          position.line position.column))
  | .Function _ =>
    some (none,
      some (.Error "function definitions are not mutable" position.line position.column))

/-- `Evaluator::evaluate_statement`: returns the updated contexts and the
statement's `Option<Value>` contribution to the `find_map`; `none` models
the `todo!()`s (non-identifier patterns, `return`, error statements) and
the compound-assignment panic. -/
def evaluate_statement (fuel : Nat) (node : PNode Statement)
    (outer_context inner_context : Context) :
    Option (Context × Context × Option Value) :=
  match node.value with
  | .Let mutable identifier value =>
    match identifier.value with
    | .Identifier id => do
      let v ← evaluate_expression fuel value outer_context inner_context
      some (outer_context, ctx_insert inner_context id (.Value mutable v), none)
    | _ => none
  | .Return _ => none
  | .Error _ => none
  | .Assignment left right variant =>
    match left.value with
    | .Identifier identifier => do
      let r ← evaluate_expression fuel right outer_context inner_context
      match ctx_get inner_context identifier, ctx_get outer_context identifier with
      | none, none =>
        some (outer_context, inner_context,
          some (.Error ("identifier " ++ identifier ++ " not defined")
            node.position.line node.position.column))
      | some idt, _ => do
        let (newVal, contribution) ← assign_value idt r variant identifier node.position
        match newVal with
        | some v => some (outer_context, ctx_insert inner_context identifier v, contribution)
        | none => some (outer_context, inner_context, contribution)
      | none, some idt => do
        let (newVal, contribution) ← assign_value idt r variant identifier node.position
        match newVal with
        | some v => some (ctx_insert outer_context identifier v, inner_context, contribution)
        | none => some (outer_context, inner_context, contribution)
    | _ => none
  | .Expression expression => do
    let v ← evaluate_expression fuel expression outer_context inner_context
    some (outer_context, inner_context, some v)

/-- The `find_map` loop of `Evaluator::evaluate_statements`: the first
statement whose evaluation produces `Some` ends the walk. -/
def evaluate_statements_loop (fuel : Nat) :
    List (PNode Statement) → Context → Context → Option (Option Value)
  | [], _, _ => some none
  | statement :: rest, outer_context, inner_context => do
    let (outer_context, inner_context, contribution) ←
      evaluate_statement fuel statement outer_context inner_context
    match contribution with
    | some v => some (some v)
    | none => evaluate_statements_loop fuel rest outer_context inner_context

/-- `Evaluator::evaluate_statements`: fresh contexts, then `find_map`. -/
def evaluate_statements (fuel : Nat) (statements : List (PNode Statement)) :
    Option (Option Value) :=
  evaluate_statements_loop fuel statements [] []

/-- The full couch-lang pipeline on a source text, as exercised by the
evaluator's tests: lex, `parse_statements`, `evaluate_statements`. -/
def pipeline (fuel : Nat) (text : List Char) : Option (Option Value) := do
  let (statements, _) ← parse_statements fuel { iter := lex text, text := text }
  evaluate_statements fuel statements

/-- The expression-level pipeline (`parse_expression` then
`evaluate_expression` with fresh contexts), as exercised by the tests. -/
def expression_pipeline (fuel : Nat) (text : List Char) : Option Value := do
  let (expression, _) ← parse_expression fuel { iter := lex text, text := text }
  evaluate_expression fuel expression [] []

end Couch

namespace Riara

/-- `riara/src/token.rs` `TokenType`. -/
inductive TokenType where
  | Eof | Error | Id | Int | String | False | True | Not | And | Or | In | If | Else | Let
  | LParen | RParen | LBrace | RBrace | LBracket | RBracket
  | Dot | Comma | Colon | Semicolon | Plus | Minus | Asterisk | Slash | Equal
  deriving DecidableEq

/-- Rust `{:?}` formatting of a `TokenType`. -/
def token_type_debug : TokenType → String
  | .Eof => "Eof"
  | .Error => "Error"
  | .Id => "Id"
  | .Int => "Int"
  | .String => "String"
  | .False => "False"
  | .True => "True"
  | .Not => "Not"
  | .And => "And"
  | .Or => "Or"
  | .In => "In"
  | .If => "If"
  | .Else => "Else"
  | .Let => "Let"
  | .LParen => "LParen"
  | .RParen => "RParen"
  | .LBrace => "LBrace"
  | .RBrace => "RBrace"
  | .LBracket => "LBracket"
  | .RBracket => "RBracket"
  | .Dot => "Dot"
  | .Comma => "Comma"
  | .Colon => "Colon"
  | .Semicolon => "Semicolon"
  | .Plus => "Plus"
  | .Minus => "Minus"
  | .Asterisk => "Asterisk"
  | .Slash => "Slash"
  | .Equal => "Equal"

/-- `riara/src/pos.rs` `Pos`: a character index (`step` advances it by one
per character), a 1-based line and a 1-based column. -/
structure Pos where
  index : Nat
  line : Nat
  col : Nat
  deriving DecidableEq

/-- `riara/src/pos.rs` `ErrorType`. -/
inductive ErrorType where
  | Lexer | Parser | Runtime
  deriving DecidableEq

/-- `riara/src/pos.rs` `Error`. -/
structure Error where
  error_type : ErrorType
  pos : Pos
  message : String
  deriving DecidableEq

/-- `riara/src/token.rs` `Token`. -/
structure Token where
  token_type : TokenType
  pos : Pos
  length : Nat
  deriving DecidableEq

/-- `Token::value`: the Rust byte slice `&text[pos.index..pos.index+length]`
(`none` models the panic on a misaligned slice). -/
def Token.value (t : Token) (text : List Char) : Option (List Char) :=
  byteSlice text t.pos.index t.length

/-- `riara/src/lexer.rs` `Lexer`: the source text, the current character and
the characters still to come, position counters, and the collected lexical
errors. -/
structure Lexer where
  text : List Char
  current : Option Char
  rest : List Char
  index : Nat
  line : Nat
  col : Nat
  errors : List Error
  deriving DecidableEq

/-- `Lexer::new`. -/
def lexer_new (text : List Char) : Lexer :=
  { text := text, current := text.head?, rest := text.tail,
    index := 0, line := 1, col := 1, errors := [] }

/-- `Lexer::pos`. -/
def lexer_pos (lx : Lexer) : Pos :=
  { index := lx.index, line := lx.line, col := lx.col }

/-- `Lexer::step`. -/
def lexer_step (lx : Lexer) : Lexer :=
  let current := lx.rest.head?
  let lx := { lx with current := current, rest := lx.rest.tail, index := lx.index + 1 }
  match current with
  | some '\n' => { lx with line := lx.line + 1, col := 1 }
  | some _ => { lx with col := lx.col + 1 }
  | none => lx

/-- `Lexer::token`. -/
def lexer_token (lx : Lexer) (token_type : TokenType) (pos : Pos) : Token :=
  { token_type := token_type, length := lx.index - pos.index, pos := pos }

/-- `Lexer::add_error`. -/
def lexer_add_error (lx : Lexer) (pos : Pos) (message : String) : Lexer :=
  { lx with errors := lx.errors ++ [⟨.Lexer, pos, message⟩] }

/-- The keyword table of `next_token`. -/
def keyword_type (s : List Char) : TokenType :=
  if s = "false".toList then .False
  else if s = "true".toList then .True
  else if s = "not".toList then .Not
  else if s = "or".toList then .Or
  else if s = "and".toList then .And
  else if s = "in".toList then .In
  else if s = "if".toList then .If
  else if s = "else".toList then .Else
  else if s = "let".toList then .Let
  else .Id

/-- Identifier continuation characters of `next_token`. -/
def id_char (c : Char) : Bool :=
  (decide ('a' ≤ c) && decide (c ≤ 'z')) || (decide ('A' ≤ c) && decide (c ≤ 'Z')) ||
    (decide ('0' ≤ c) && decide (c ≤ '9')) || c = '_'

/-- Identifier start characters of `next_token`. -/
def id_start (c : Char) : Bool :=
  (decide ('a' ≤ c) && decide (c ≤ 'z')) || (decide ('A' ≤ c) && decide (c ≤ 'Z')) || c = '_'

/-- Whitespace characters of `next_token`. -/
def ws_char (c : Char) : Bool :=
  c = ' ' || c = '\t' || c = '\n' || c = '\r'

/-- The identifier loop of `next_token` (consume while `id_char`). -/
def id_loop : Nat → Lexer → Lexer
  | 0, lx => lx
  | fuel + 1, lx =>
    match lx.current with
    | some c => if id_char c then id_loop fuel (lexer_step lx) else lx
    | none => lx

/-- The whitespace loop of `next_token`. -/
def ws_loop : Nat → Lexer → Lexer
  | 0, lx => lx
  | fuel + 1, lx =>
    match lx.current with
    | some c => if ws_char c then ws_loop fuel (lexer_step lx) else lx
    | none => lx

/-- The digit loop of `next_token`. -/
def int_loop : Nat → Lexer → Lexer
  | 0, lx => lx
  | fuel + 1, lx =>
    match lx.current with
    | some c =>
      if decide ('0' ≤ c) && decide (c ≤ '9') then int_loop fuel (lexer_step lx) else lx
    | none => lx

/-- The string-literal loop of `next_token`: `\` escapes the next character
unconditionally; an unterminated literal adds a "malformed string literal"
error and yields an `Error` token. -/
def string_loop : Nat → Lexer → Pos → Token × Lexer
  | 0, lx, pos => (lexer_token lx .Error pos, lx)
  | fuel + 1, lx, pos =>
    match lx.current with
    | some '\\' =>
      let lx := lexer_step lx
      match lx.current with
      | some _ => string_loop fuel (lexer_step lx) pos
      | none =>
        let lx := lexer_add_error lx pos "malformed string literal"
        (lexer_token lx .Error pos, lx)
    | some '"' =>
      let lx := lexer_step lx
      (lexer_token lx .String pos, lx)
    | some _ => string_loop fuel (lexer_step lx) pos
    | none =>
      let lx := lexer_add_error lx pos "malformed string literal"
      (lexer_token lx .Error pos, lx)

/-- `Lexer::next_token`.  Fueled (the whitespace branch restarts the
function); `none` models the keyword-lookup byte-slice panic and, artificially,
fuel exhaustion, which no theorem's concrete fuel reaches. -/
def next_token : Nat → Lexer → Option (Token × Lexer)
  | 0, _ => none
  | fuel + 1, lx =>
    let pos := lexer_pos lx
    match lx.current with
    | none => some (lexer_token lx .Eof pos, lx)
    | some c =>
      if id_start c then
        let lx := id_loop fuel (lexer_step lx)
        do
          let value ← byteSlice lx.text pos.index (lx.index - pos.index)
          some (lexer_token lx (keyword_type value) pos, lx)
      else if ws_char c then
        next_token fuel (ws_loop fuel (lexer_step lx))
      else if decide ('0' ≤ c) && decide (c ≤ '9') then
        let lx := int_loop fuel (lexer_step lx)
        some (lexer_token lx .Int pos, lx)
      else if c = '"' then
        some (string_loop fuel (lexer_step lx) pos)
      else if c = '(' then
        let lx := lexer_step lx
        some (lexer_token lx .LParen pos, lx)
      else if c = ')' then
        let lx := lexer_step lx
        some (lexer_token lx .RParen pos, lx)
      else if c = '\x7b' then
        let lx := lexer_step lx
        some (lexer_token lx .LBrace pos, lx)
      else if c = '\x7d' then
        let lx := lexer_step lx
        some (lexer_token lx .RBrace pos, lx)
      else if c = '[' then
        let lx := lexer_step lx
        some (lexer_token lx .LBracket pos, lx)
      else if c = ']' then
        let lx := lexer_step lx
        some (lexer_token lx .RBracket pos, lx)
      else if c = '.' then
        let lx := lexer_step lx
        some (lexer_token lx .Dot pos, lx)
      else if c = ',' then
        let lx := lexer_step lx
        some (lexer_token lx .Comma pos, lx)
      else if c = ':' then
        let lx := lexer_step lx
        some (lexer_token lx .Colon pos, lx)
      else if c = ';' then
        let lx := lexer_step lx
        some (lexer_token lx .Semicolon pos, lx)
      else if c = '+' then
        let lx := lexer_step lx
        some (lexer_token lx .Plus pos, lx)
      else if c = '-' then
        let lx := lexer_step lx
        some (lexer_token lx .Minus pos, lx)
      else if c = '*' then
        let lx := lexer_step lx
        some (lexer_token lx .Asterisk pos, lx)
      else if c = '/' then
        let lx := lexer_step lx
        some (lexer_token lx .Slash pos, lx)
      else if c = '=' then
        let lx := lexer_step lx
        some (lexer_token lx .Equal pos, lx)
      else
        let lx := lexer_step lx
        let lx := lexer_add_error lx pos ("invalid char '" ++ String.mk [c] ++ "'")
        some (lexer_token lx .Error pos, lx)

/-- `riara/src/parsed.rs` `UnaryType`. -/
inductive UnaryType where
  | Plus | Negate | Not
  deriving DecidableEq

/-- Rust `{:?}` formatting of a `UnaryType`. -/
def unary_type_debug : UnaryType → String
  | .Plus => "Plus"
  | .Negate => "Negate"
  | .Not => "Not"

/-- `riara/src/parsed.rs` `BinaryType`. -/
inductive BinaryType where
  | Add | Subtract | Multiply | Divide | Or | And | Includes | Excludes
  deriving DecidableEq

/-- Rust `{:?}` formatting of a `BinaryType`. -/
def binary_type_debug : BinaryType → String
  | .Add => "Add"
  | .Subtract => "Subtract"
  | .Multiply => "Multiply"
  | .Divide => "Divide"
  | .Or => "Or"
  | .And => "And"
  | .Includes => "Includes"
  | .Excludes => "Excludes"

/-- `riara/src/pos.rs` `Node<T>`. -/
structure Node (α : Type) where
  value : α
  pos : Pos

/-- `riara/src/parsed.rs` `Expr`. -/
inductive Expr where
  | Error
  | Unit
  | Id (id : String)
  | Int (v : Int)
  | String (v : String)
  | Bool (v : Bool)
  | Tuple (exprs : List (Node Expr))
  | Array (exprs : List (Node Expr))
  | Block (statements : List (Node Expr)) (expr : Option (Node Expr))
  | If (condition : Node Expr) (truthy : Node Expr) (falsy : Option (Node Expr))
  | Index (subject : Node Expr) (value : Node Expr)
  | Call (subject : Node Expr) (arguments : List (Node Expr))
  | Unary (unary_type : UnaryType) (subject : Node Expr)
  | Binary (binary_type : BinaryType) (left : Node Expr) (right : Node Expr)
  | Let (id : String) (value : Node Expr)

/-- `riara/src/utils.rs` `unescape_string`. -/
def unescape_string : List Char → Except String (List Char)
  | [] => .ok []
  | '\\' :: rest =>
    match rest with
    | [] => .error "malformed escape sequence, expected char after '\\'"
    | c :: rest2 =>
      let ch : Char :=
        match c with
        | 't' => '\t'
        | 'r' => '\r'
        | 'n' => '\n'
        | '0' => Char.ofNat 0
        | other => other
      (unescape_string rest2).map (ch :: ·)
  | c :: rest => (unescape_string rest).map (c :: ·)

/-- `riara/src/parser.rs` `Parser`: the source text, the lexer it pulls
from, the one-token lookahead, and the collected parse errors. -/
structure ParserSt where
  text : List Char
  lexer : Lexer
  current : Token
  errors : List Error

/-- `Parser::step`: pull the next token from the lexer. -/
def parser_step (fuel : Nat) (p : ParserSt) : Option ParserSt := do
  let (tok, lx) ← next_token fuel p.lexer
  some { p with current := tok, lexer := lx }

/-- `Parser::add_error`. -/
def parser_add_error (p : ParserSt) (pos : Pos) (message : String) : ParserSt :=
  { p with errors := p.errors ++ [⟨.Parser, pos, message⟩] }

/-- `riara/src/parser.rs` `requires_semicolon`. -/
def requires_semicolon : TokenType → Bool
  | .LBrace | .If => false
  | _ => true

set_option maxHeartbeats 2000000 in
mutual

/-- `Parser::parse`: a whole program is one expression followed by `Eof`. -/
def parse : Nat → ParserSt → Option (Node Expr × ParserSt)
  | 0, _ => none
  | fuel + 1, p => do
    let (expr, p) ← parse_expr fuel p
    match p.current.token_type with
    | .Eof => some (expr, p)
    | tt =>
      some (expr, parser_add_error p p.current.pos ("expected Eof, got " ++ token_type_debug tt))

/-- `Parser::parse_statement`. -/
def parse_statement : Nat → ParserSt → Option (Node Expr × ParserSt)
  | 0, _ => none
  | fuel + 1, p =>
    match p.current.token_type with
    | .LBrace => parse_block_expr fuel p
    | .If => parse_if_expr fuel p
    | .Let => parse_let_statement fuel p
    | _ => parse_expr fuel p

/-- `Parser::parse_let_statement`. -/
def parse_let_statement : Nat → ParserSt → Option (Node Expr × ParserSt)
  | 0, _ => none
  | fuel + 1, p => do
    let pos := p.current.pos
    let p ← parser_step fuel p
    if p.current.token_type = .Id then do
      let idChars ← Token.value p.current p.text
      let id := String.mk idChars
      let p ← parser_step fuel p
      if p.current.token_type = .Equal then do
        let p ← parser_step fuel p
        let (value, p) ← parse_expr fuel p
        some (⟨.Let id value, pos⟩, p)
      else
        let p := parser_add_error p pos
          ("expected '=', got " ++ token_type_debug p.current.token_type)
        some (⟨.Error, pos⟩, p)
    else
      let p := parser_add_error p pos
        ("expected Id, got " ++ token_type_debug p.current.token_type)
      some (⟨.Error, pos⟩, p)

/-- `Parser::parse_expr`. -/
def parse_expr : Nat → ParserSt → Option (Node Expr × ParserSt)
  | 0, _ => none
  | fuel + 1, p => parse_or_expr fuel p

/-- `Parser::parse_or_expr` (a loop: left-associative). -/
def parse_or_expr : Nat → ParserSt → Option (Node Expr × ParserSt)
  | 0, _ => none
  | fuel + 1, p => do
    let (left, p) ← parse_and_expr fuel p
    parse_or_loop fuel left p

/-- The `loop` of `parse_or_expr`. -/
def parse_or_loop : Nat → Node Expr → ParserSt → Option (Node Expr × ParserSt)
  | 0, _, _ => none
  | fuel + 1, left, p =>
    match p.current.token_type with
    | .Or => do
      let pos := p.current.pos
      let p ← parser_step fuel p
      let (right, p) ← parse_and_expr fuel p
      parse_or_loop fuel ⟨.Binary .Or left right, pos⟩ p
    | _ => some (left, p)

/-- `Parser::parse_and_expr` (a loop: left-associative). -/
def parse_and_expr : Nat → ParserSt → Option (Node Expr × ParserSt)
  | 0, _ => none
  | fuel + 1, p => do
    let (left, p) ← parse_comparison_expr fuel p
    parse_and_loop fuel left p

/-- The `loop` of `parse_and_expr`. -/
def parse_and_loop : Nat → Node Expr → ParserSt → Option (Node Expr × ParserSt)
  | 0, _, _ => none
  | fuel + 1, left, p =>
    match p.current.token_type with
    | .And => do
      let pos := p.current.pos
      let p ← parser_step fuel p
      let (right, p) ← parse_comparison_expr fuel p
      parse_and_loop fuel ⟨.Binary .And left right, pos⟩ p
    | _ => some (left, p)

/-- `Parser::parse_comparison_expr` (`in` / `not in`, a loop). -/
def parse_comparison_expr : Nat → ParserSt → Option (Node Expr × ParserSt)
  | 0, _ => none
  | fuel + 1, p => do
    let (left, p) ← parse_add_subtract_expr fuel p
    parse_comparison_loop fuel left p

/-- The `loop` of `parse_comparison_expr`; `not` not followed by `in`
returns an `Error` node. -/
def parse_comparison_loop : Nat → Node Expr → ParserSt → Option (Node Expr × ParserSt)
  | 0, _, _ => none
  | fuel + 1, left, p =>
    match p.current.token_type with
    | .In => do
      let pos := p.current.pos
      let p ← parser_step fuel p
      let (right, p) ← parse_add_subtract_expr fuel p
      parse_comparison_loop fuel ⟨.Binary .Includes left right, pos⟩ p
    | .Not => do
      let pos := p.current.pos
      let p ← parser_step fuel p
      match p.current.token_type with
      | .In => do
        let p ← parser_step fuel p
        let (right, p) ← parse_add_subtract_expr fuel p
        parse_comparison_loop fuel ⟨.Binary .Excludes left right, pos⟩ p
      | tt =>
        let p := parser_add_error p pos ("expected 'not', got " ++ token_type_debug tt)
        some (⟨.Error, pos⟩, p)
    | _ => some (left, p)

/-- `Parser::parse_add_subtract_expr` (a loop: left-associative; note the
right operand is `parse_unary_expr`, not the multiplicative level). -/
def parse_add_subtract_expr : Nat → ParserSt → Option (Node Expr × ParserSt)
  | 0, _ => none
  | fuel + 1, p => do
    let (left, p) ← parse_multiply_divide_expr fuel p
    parse_add_subtract_loop fuel left p

/-- The `loop` of `parse_add_subtract_expr`. -/
def parse_add_subtract_loop : Nat → Node Expr → ParserSt → Option (Node Expr × ParserSt)
  | 0, _, _ => none
  | fuel + 1, left, p =>
    match p.current.token_type with
    | .Plus => do
      let pos := p.current.pos
      let p ← parser_step fuel p
      let (right, p) ← parse_unary_expr fuel p
      parse_add_subtract_loop fuel ⟨.Binary .Add left right, pos⟩ p
    | .Minus => do
      let pos := p.current.pos
      let p ← parser_step fuel p
      let (right, p) ← parse_unary_expr fuel p
      parse_add_subtract_loop fuel ⟨.Binary .Subtract left right, pos⟩ p
    | _ => some (left, p)

/-- `Parser::parse_multiply_divide_expr` (a loop: left-associative). -/
def parse_multiply_divide_expr : Nat → ParserSt → Option (Node Expr × ParserSt)
  | 0, _ => none
  | fuel + 1, p => do
    let (left, p) ← parse_unary_expr fuel p
    parse_multiply_divide_loop fuel left p

/-- The `loop` of `parse_multiply_divide_expr`. -/
def parse_multiply_divide_loop : Nat → Node Expr → ParserSt → Option (Node Expr × ParserSt)
  | 0, _, _ => none
  | fuel + 1, left, p =>
    match p.current.token_type with
    | .Asterisk => do
      let pos := p.current.pos
      let p ← parser_step fuel p
      let (right, p) ← parse_unary_expr fuel p
      parse_multiply_divide_loop fuel ⟨.Binary .Multiply left right, pos⟩ p
    | .Slash => do
      let pos := p.current.pos
      let p ← parser_step fuel p
      let (right, p) ← parse_unary_expr fuel p
      parse_multiply_divide_loop fuel ⟨.Binary .Divide left right, pos⟩ p
    | _ => some (left, p)

/-- `Parser::parse_unary_expr` (right-recursive prefix operators). -/
def parse_unary_expr : Nat → ParserSt → Option (Node Expr × ParserSt)
  | 0, _ => none
  | fuel + 1, p =>
    let pos := p.current.pos
    match p.current.token_type with
    | .Plus => do
      let p ← parser_step fuel p
      let (subject, p) ← parse_unary_expr fuel p
      some (⟨.Unary .Plus subject, pos⟩, p)
    | .Minus => do
      let p ← parser_step fuel p
      let (subject, p) ← parse_unary_expr fuel p
      some (⟨.Unary .Negate subject, pos⟩, p)
    | .Not => do
      let p ← parser_step fuel p
      let (subject, p) ← parse_unary_expr fuel p
      some (⟨.Unary .Not subject, pos⟩, p)
    | _ => parse_call_index_expr fuel p

/-- `Parser::parse_call_index_expr`; a call (`(`) is `todo!()` (`none`). -/
def parse_call_index_expr : Nat → ParserSt → Option (Node Expr × ParserSt)
  | 0, _ => none
  | fuel + 1, p => do
    let (subject, p) ← parse_expr_operand fuel p
    let pos := p.current.pos
    match p.current.token_type with
    | .LParen => none
    | .LBracket => do
      let p ← parser_step fuel p
      let (value, p) ← parse_expr fuel p
      match p.current.token_type with
      | .RBracket => do
        let p ← parser_step fuel p
        some (⟨.Index subject value, pos⟩, p)
      | tt =>
        let p := parser_add_error p p.current.pos ("expected ']', got " ++ token_type_debug tt)
        some (⟨.Error, pos⟩, p)
    | _ => some (subject, p)

/-- `Parser::parse_expr_operand`; a token that cannot begin an operand adds
an error to the collector and yields an `Error` node.  The `Int` branch's
`parse().unwrap()` panics (`none`) on a literal that does not fit `i64`. -/
def parse_expr_operand : Nat → ParserSt → Option (Node Expr × ParserSt)
  | 0, _ => none
  | fuel + 1, p =>
    let pos := p.current.pos
    match p.current.token_type with
    | .Id => do
      let idChars ← Token.value p.current p.text
      let p ← parser_step fuel p
      some (⟨.Id (String.mk idChars), pos⟩, p)
    | .Int => do
      let numChars ← Token.value p.current p.text
      let number ← parse_i64 numChars
      let p ← parser_step fuel p
      some (⟨.Int number, pos⟩, p)
    | .String => parse_string_expr fuel p
    | .False => do
      let p ← parser_step fuel p
      some (⟨.Bool false, pos⟩, p)
    | .True => do
      let p ← parser_step fuel p
      some (⟨.Bool true, pos⟩, p)
    | .LParen => parse_unit_or_group_or_tuple_expr fuel p
    | .LBracket => parse_array_expr fuel p
    | .LBrace => parse_block_expr fuel p
    | .If => parse_if_expr fuel p
    | tt =>
      let p := parser_add_error p p.current.pos ("expected operand, got " ++ token_type_debug tt)
      some (⟨.Error, p.current.pos⟩, p)

/-- `Parser::parse_string_expr`. -/
def parse_string_expr : Nat → ParserSt → Option (Node Expr × ParserSt)
  | 0, _ => none
  | fuel + 1, p => do
    let pos := p.current.pos
    let literal_value ← Token.value p.current p.text
    let inner ← byteSlice literal_value 1 ((utf8Encode literal_value).length - 2)
    match unescape_string inner with
    | .error message =>
      let p := parser_add_error p pos ("malformed string, " ++ message)
      some (⟨.Error, pos⟩, p)
    | .ok unescaped => do
      let p ← parser_step fuel p
      some (⟨.String (String.mk unescaped), pos⟩, p)

/-- `Parser::parse_unit_or_group_or_tuple_expr`. -/
def parse_unit_or_group_or_tuple_expr : Nat → ParserSt → Option (Node Expr × ParserSt)
  | 0, _ => none
  | fuel + 1, p => do
    let pos := p.current.pos
    let p ← parser_step fuel p
    match p.current.token_type with
    | .RParen => do
      let p ← parser_step fuel p
      some (⟨.Unit, pos⟩, p)
    | _ => do
      let (first_expr, p) ← parse_expr fuel p
      match p.current.token_type with
      | .RParen => do
        let p ← parser_step fuel p
        some (first_expr, p)
      | .Comma => parse_tuple_loop fuel [first_expr] pos p
      | tt =>
        let p := parser_add_error p p.current.pos
          ("expected ',' or ')', got " ++ token_type_debug tt)
        some (⟨.Error, pos⟩, p)

/-- The `while` loop of the tuple case in
`parse_unit_or_group_or_tuple_expr` (trailing comma permitted). -/
def parse_tuple_loop : Nat → List (Node Expr) → Pos → ParserSt → Option (Node Expr × ParserSt)
  | 0, _, _, _ => none
  | fuel + 1, exprs, pos, p =>
    match p.current.token_type with
    | .Comma => do
      let p ← parser_step fuel p
      match p.current.token_type with
      | .RParen => parse_tuple_end fuel exprs pos p
      | _ => do
        let (e, p) ← parse_expr fuel p
        parse_tuple_loop fuel (exprs ++ [e]) pos p
    | _ => parse_tuple_end fuel exprs pos p

/-- The closing-parenthesis check after the tuple loop. -/
def parse_tuple_end : Nat → List (Node Expr) → Pos → ParserSt → Option (Node Expr × ParserSt)
  | 0, _, _, _ => none
  | fuel + 1, exprs, pos, p =>
    match p.current.token_type with
    | .RParen => do
      let p ← parser_step fuel p
      some (⟨.Tuple exprs, pos⟩, p)
    | tt =>
      let p := parser_add_error p p.current.pos ("expected ')', got " ++ token_type_debug tt)
      some (⟨.Tuple exprs, pos⟩, p)

/-- `Parser::parse_array_expr`. -/
def parse_array_expr : Nat → ParserSt → Option (Node Expr × ParserSt)
  | 0, _ => none
  | fuel + 1, p => do
    let pos := p.current.pos
    let p ← parser_step fuel p
    match p.current.token_type with
    | .RBracket => do
      let p ← parser_step fuel p
      some (⟨.Array [], pos⟩, p)
    | _ => do
      let (e, p) ← parse_expr fuel p
      parse_array_loop fuel [e] pos p

/-- The `loop` of `parse_array_expr`. -/
def parse_array_loop : Nat → List (Node Expr) → Pos → ParserSt → Option (Node Expr × ParserSt)
  | 0, _, _, _ => none
  | fuel + 1, exprs, pos, p =>
    match p.current.token_type with
    | .RBracket => do
      let p ← parser_step fuel p
      some (⟨.Array exprs, pos⟩, p)
    | .Comma => do
      let p ← parser_step fuel p
      match p.current.token_type with
      | .RBracket => do
        let p ← parser_step fuel p
        some (⟨.Array exprs, pos⟩, p)
      | _ => parse_array_loop fuel exprs pos p
    | _ => do
      let (e, p) ← parse_expr fuel p
      parse_array_loop fuel (exprs ++ [e]) pos p

/-- `Parser::parse_block_expr`. -/
def parse_block_expr : Nat → ParserSt → Option (Node Expr × ParserSt)
  | 0, _ => none
  | fuel + 1, p => do
    let pos := p.current.pos
    let p ← parser_step fuel p
    match p.current.token_type with
    | .RBrace => do
      let p ← parser_step fuel p
      some (⟨.Block [] none, pos⟩, p)
    | _ => parse_block_loop fuel [] pos p

/-- The statement loop of `parse_block_expr`: a trailing statement not
followed by `;` becomes the block's value; consecutive `;` are coalesced;
an unclosed block is a parse error. -/
def parse_block_loop : Nat → List (Node Expr) → Pos → ParserSt → Option (Node Expr × ParserSt)
  | 0, _, _, _ => none
  | fuel + 1, statements, pos, p => do
    let requires_semi := requires_semicolon p.current.token_type
    let (stmt, p) ← parse_statement fuel p
    let statements := statements ++ [stmt]
    match p.current.token_type with
    | .RBrace => do
      let p ← parser_step fuel p
      match statements.getLast? with
      | some expr => some (⟨.Block statements.dropLast (some expr), pos⟩, p)
      | none => none
    | .Semicolon => do
      let p ← parse_block_skip_semis fuel p
      match p.current.token_type with
      | .RBrace => do
        let p ← parser_step fuel p
        some (⟨.Block statements none, pos⟩, p)
      | .Eof =>
        let p := parser_add_error p p.current.pos "expected '\x7d', got Eof"
        some (⟨.Error, pos⟩, p)
      | _ => parse_block_loop fuel statements pos p
    | .Eof =>
      let p := parser_add_error p p.current.pos "expected '\x7d' or ';', got Eof"
      some (⟨.Error, pos⟩, p)
    | tt =>
      let p :=
        if requires_semi then
          parser_add_error p p.current.pos ("expected '\x7d' or ';', got " ++ token_type_debug tt)
        else p
      parse_block_loop fuel statements pos p

/-- The `while self.current == Semicolon` loop inside `parse_block_expr`. -/
def parse_block_skip_semis : Nat → ParserSt → Option ParserSt
  | 0, _ => none
  | fuel + 1, p =>
    match p.current.token_type with
    | .Semicolon => do
      let p ← parser_step fuel p
      parse_block_skip_semis fuel p
    | _ => some p

/-- `Parser::parse_if_expr`. -/
def parse_if_expr : Nat → ParserSt → Option (Node Expr × ParserSt)
  | 0, _ => none
  | fuel + 1, p => do
    let pos := p.current.pos
    let p ← parser_step fuel p
    let (condition, p) ← parse_expr fuel p
    let (truthy, p) ← parse_block_expr fuel p
    match p.current.token_type with
    | .Else => do
      let p ← parser_step fuel p
      let (falsy, p) ← parse_block_expr fuel p
      some (⟨.If condition truthy (some falsy), pos⟩, p)
    | _ => some (⟨.If condition truthy none, pos⟩, p)

end

/-- `Parser::new` followed by `parse`: the riara front half on a text. -/
def parse_text (fuel : Nat) (text : List Char) : Option (Node Expr × ParserSt) := do
  let (current, lx) ← next_token fuel (lexer_new text)
  parse fuel { text := text, lexer := lx, current := current, errors := [] }

/-- `riara/src/runtime.rs` `Value`. -/
inductive Value where
  | Unit
  | Int (v : Int)
  | Char (c : Char)
  | String (s : String)
  | Bool (b : Bool)
  | Tuple (vs : List Value)
  | Array (vs : List Value)

mutual

/-- The derived `PartialEq` on `Value` (structural). -/
def value_beq : Value → Value → Bool
  | .Unit, .Unit => true
  | .Int a, .Int b => a == b
  | .Char a, .Char b => a == b
  | .String a, .String b => a == b
  | .Bool a, .Bool b => a == b
  | .Tuple a, .Tuple b => value_list_beq a b
  | .Array a, .Array b => value_list_beq a b
  | _, _ => false

/-- Structural equality on value lists. -/
def value_list_beq : List Value → List Value → Bool
  | [], [] => true
  | a :: as, b :: bs => value_beq a b && value_list_beq as bs
  | _, _ => false

end

/-- `Value::type_string`. -/
def type_string : Value → String
  | .Unit => "()"
  | .Int _ => "int"
  | .Char _ => "char"
  | .String _ => "string"
  | .Bool _ => "bool"
  | .Tuple _ => "tuple"
  | .Array _ => "array"

/-- `riara/src/runtime.rs` `Symbol`. -/
structure Symbol where
  stack_depth : Nat
  id : String
  value : Value

/-- `riara/src/runtime.rs` `Evaluator`. -/
structure Evaluator where
  stack_depth : Nat
  symbols : List Symbol

/-- `Evaluator::new`. -/
def evaluator_new : Evaluator :=
  { stack_depth := 0, symbols := [] }

/-- `Evaluator::enter_scope`. -/
def enter_scope (ev : Evaluator) : Evaluator :=
  { ev with stack_depth := ev.stack_depth + 1 }

/-- `Evaluator::leave_scope`: decrement the depth (the usize subtraction
cannot underflow: every call pairs with an `enter_scope`) and retain only
the symbols whose depth is at most the new depth. -/
def leave_scope (ev : Evaluator) : Evaluator :=
  { stack_depth := ev.stack_depth - 1,
    symbols := ev.symbols.filter (fun s => s.stack_depth ≤ ev.stack_depth - 1) }

/-- `Evaluator::find_symbol`: `rfind`, the most recently pushed match. -/
def find_symbol (ev : Evaluator) (id : String) : Option Symbol :=
  ev.symbols.reverse.find? (fun s => s.id == id)

/-- `Evaluator::define_symbol`: `rfind` a binding with this name; if one
exists at the current depth overwrite its value in place, otherwise push a
new symbol at the current depth. -/
def define_symbol (ev : Evaluator) (id : String) (value : Value) : Evaluator :=
  match (ev.symbols.reverse.findIdx? (fun s => s.id == id)) with
  | some k =>
    let i := ev.symbols.length - 1 - k
    match ev.symbols.get? i with
    | some s =>
      if s.stack_depth = ev.stack_depth then
        { ev with symbols := ev.symbols.set i { s with value := value } }
      else
        { ev with symbols := ev.symbols ++ [⟨ev.stack_depth, id, value⟩] }
    | none => { ev with symbols := ev.symbols ++ [⟨ev.stack_depth, id, value⟩] }
  | none => { ev with symbols := ev.symbols ++ [⟨ev.stack_depth, id, value⟩] }

/-- `Evaluator::error`. -/
def runtime_error (pos : Pos) (message : String) : Error :=
  { error_type := .Runtime, pos := pos, message := message }

mutual

/-- `Evaluator::eval_expr`.  `none` models the panics: the `unreachable!`
on an `Expr::Error`, the `todo!` on calls, `i64` division by zero, and
(artificially) fuel exhaustion, which no theorem's concrete fuel reaches.
Runtime errors are `Except.error` values and propagate through `?`. -/
def eval_expr : Nat → Evaluator → Node Expr → Option (Evaluator × Except Error Value)
  | 0, _, _ => none
  | fuel + 1, ev, node =>
    let pos := node.pos
    match node.value with
    | .Error => none
    | .Unit => some (ev, .ok .Unit)
    | .Id id =>
      match find_symbol ev id with
      | some s => some (ev, .ok s.value)
      | none => some (ev, .error (runtime_error pos ("undefined symbol '" ++ id ++ "'")))
    | .Int v => some (ev, .ok (.Int v))
    | .String v => some (ev, .ok (.String v))
    | .Bool v => some (ev, .ok (.Bool v))
    | .Tuple exprs => do
      let (ev, res) ← eval_expr_list fuel ev exprs
      match res with
      | .ok vs => some (ev, .ok (.Tuple vs))
      | .error e => some (ev, .error e)
    | .Array exprs => do
      let (ev, res) ← eval_expr_list fuel ev exprs
      match res with
      | .ok vs => some (ev, .ok (.Array vs))
      | .error e => some (ev, .error e)
    | .Block statements expr => do
      let (ev, stmtErr) ← eval_block_stmts fuel (enter_scope ev) statements
      match stmtErr with
      | some e => some (ev, .error e)
      | none => do
        let (ev, result) ←
          match expr with
          | some expr2 => eval_expr fuel ev expr2
          | none => some (ev, Except.ok Value.Unit)
        some (leave_scope ev, result)
    | .If condition truthy falsy => do
      let (ev, c) ← eval_expr fuel ev condition
      match c with
      | .error e => some (ev, .error e)
      | .ok cv =>
        match cv, falsy with
        | .Bool true, _ => eval_expr fuel ev truthy
        | .Bool false, some f => eval_expr fuel ev f
        | .Bool false, none => some (ev, .ok .Unit)
        | other, _ =>
          some (ev, .error (runtime_error pos ("expected bool, got " ++ type_string other)))
    | .Index subject value => do
      let (ev, v) ← eval_expr fuel ev value
      match v with
      | .error e => some (ev, .error e)
      | .ok v => do
        let (ev, s) ← eval_expr fuel ev subject
        match s with
        | .error e => some (ev, .error e)
        | .ok s =>
          match s, v with
          | .String str, .Int i =>
            match (if 0 ≤ i then str.toList.get? i.toNat else none) with
            | some c => some (ev, .ok (.Char c))
            | none => some (ev, .error (runtime_error pos "index overflow"))
          | .Tuple vs, .Int i =>
            match (if 0 ≤ i then vs.get? i.toNat else none) with
            | some w => some (ev, .ok w)
            | none => some (ev, .error (runtime_error pos "index overflow"))
          | .Array vs, .Int i =>
            match (if 0 ≤ i then vs.get? i.toNat else none) with
            | some w => some (ev, .ok w)
            | none => some (ev, .error (runtime_error pos "index overflow"))
          | s, v =>
            some (ev, .error (runtime_error pos
              ("cannot index into " ++ type_string s ++ " with " ++ type_string v)))
    | .Call _ _ => none
    | .Unary unary_type subject => do
      let (ev, v) ← eval_expr fuel ev subject
      match v with
      | .error e => some (ev, .error e)
      | .ok v =>
        match unary_type, v with
        | .Plus, .Int v => some (ev, .ok (.Int v))
        | .Negate, .Int v => some (ev, .ok (.Int (-v)))
        | .Not, .Bool v => some (ev, .ok (.Bool (!v)))
        | ut, _ =>
          some (ev, .error (runtime_error pos
            ("invalid unary " ++ unary_type_debug ut ++ " operation")))
    | .Binary binary_type left right => do
      let (ev, l) ← eval_expr fuel ev left
      match l with
      | .error e => some (ev, .error e)
      | .ok l => do
        let (ev, r) ← eval_expr fuel ev right
        match r with
        | .error e => some (ev, .error e)
        | .ok r =>
          match binary_type, l, r with
          | .Add, .Int a, .Int b => some (ev, .ok (.Int (a + b)))
          | .Subtract, .Int a, .Int b => some (ev, .ok (.Int (a - b)))
          | .Multiply, .Int a, .Int b => some (ev, .ok (.Int (a * b)))
          | .Divide, .Int a, .Int b =>
            if b = 0 then none else some (ev, .ok (.Int (Int.tdiv a b)))
          | .Add, .String a, .String b => some (ev, .ok (.String (a ++ b)))
          | .Or, .Bool a, .Bool b => some (ev, .ok (.Bool (a || b)))
          | .And, .Bool a, .Bool b => some (ev, .ok (.Bool (a && b)))
          | .Includes, l, .Array vs =>
            some (ev, .ok (.Bool (vs.any (fun v => value_beq v l))))
          | .Excludes, l, .Array vs =>
            some (ev, .ok (.Bool (!(vs.any (fun v => value_beq v l)))))
          | bt, _, _ =>
            some (ev, .error (runtime_error pos
              ("invalid binary " ++ binary_type_debug bt ++ " operation")))
    | .Let id value => do
      let (ev, v) ← eval_expr fuel ev value
      match v with
      | .error e => some (ev, .error e)
      | .ok v => some (define_symbol ev id v, .ok .Unit)

/-- The `collect::<Result<_, _>>()` over an expression list in the tuple
and array arms: evaluate in order, stopping at the first error. -/
def eval_expr_list : Nat → Evaluator → List (Node Expr) →
    Option (Evaluator × Except Error (List Value))
  | 0, _, _ => none
  | _ + 1, ev, [] => some (ev, .ok [])
  | fuel + 1, ev, e :: rest => do
    let (ev, v) ← eval_expr fuel ev e
    match v with
    | .error err => some (ev, .error err)
    | .ok v => do
      let (ev, vs) ← eval_expr_list fuel ev rest
      match vs with
      | .error err => some (ev, .error err)
      | .ok vs => some (ev, .ok (v :: vs))

/-- The statement loop of the `Block` arm: each statement is evaluated with
`?`, so the first error returns early — without running `leave_scope`. -/
def eval_block_stmts : Nat → Evaluator → List (Node Expr) →
    Option (Evaluator × Option Error)
  | 0, _, _ => none
  | _ + 1, ev, [] => some (ev, none)
  | fuel + 1, ev, s :: rest => do
    let (ev, res) ← eval_expr fuel ev s
    match res with
    | .ok _ => eval_block_stmts fuel ev rest
    | .error e => some (ev, some e)

end

/-- The riara `main` flow on a text, without its error-report gate: parse,
then evaluate the parsed expression with a fresh evaluator. -/
def run_text (fuel : Nat) (text : List Char) : Option (Except Error Value) := do
  let (parsed, _) ← parse_text fuel text
  let (_, result) ← eval_expr fuel evaluator_new parsed
  some result

end Riara

/-! ## Claim theorems -/


theorem indexed_chars_values : ∀ (cs : List Char) (i l c : Nat),
    (Couch.indexed_chars cs i l c).map (·.value) = cs := by
  intro cs
  induction cs with
  | nil => intro i l c; simp [Couch.indexed_chars]
  | cons a as ih =>
    intro i l c
    rw [Couch.indexed_chars]
    by_cases ha : a = '\n'
    · simp [ha, ih]
    · simp [ha, ih]

theorem block_comment_loop_none_of_unclosed (l : List Couch.IChar)
    (h : containsSub ['*', '/'] (l.map (·.value)) = false) :
    Couch.block_comment_loop l = none := by
  induction l using Couch.block_comment_loop.induct with
  | case1 => rw [Couch.block_comment_loop]
  | case2 c hc => rw [Couch.block_comment_loop.eq_def]; simp [hc]
  | case3 c hc c2 rest2 hc2 =>
    exfalso
    simp [containsSub, beginsWith, hc, hc2] at h
  | case4 c hc c2 rest2 hc2 ih =>
    rw [Couch.block_comment_loop.eq_def]
    simp only [hc, if_pos]
    have h2 : containsSub ['*', '/'] ((c2 :: rest2).map (·.value)) = false := by
      simp [containsSub] at h ⊢
      exact h.2
    have := ih h2
    simp [hc2]
    exact this
  | case5 c rest hc ih =>
    rw [Couch.block_comment_loop.eq_def]
    have h2 : containsSub ['*', '/'] (rest.map (·.value)) = false := by
      simp [containsSub] at h ⊢
      exact h.2
    simp [hc]
    exact ih h2

/-- C1: the claim's corrected mapping does not hold of the couch-lang code:
`evaluate_binary_expression` dispatches `Subtraction` to the divide
implementation and `Division` to the subtract implementation, so `20 - 10`
evaluates to integer 2 (= 20 / 10) and `20 / 10` to integer 10 (= 20 - 10),
for all integer payloads alike; the riara runtime maps subtraction and
division correctly. -/
theorem couch_dispatch_swaps_subtraction_and_division :
    Couch.expression_pipeline 8 "20 - 10".toList = some (.Integer 2) ∧
    Couch.expression_pipeline 8 "20 / 10".toList = some (.Integer 10) ∧
    (∀ (g : Nat) (a b : Int) (oc ic : Couch.Context) (pos pl pr : Couch.Position),
      Couch.evaluate_binary_expression (g + 2)
          ⟨.Binary ⟨.Integer a, pl⟩ ⟨.Integer b, pr⟩ .Subtraction, pos⟩ oc ic =
        (if b = 0 then none else some (.Integer (Int.tdiv a b)))) ∧
    (∀ (g : Nat) (a b : Int) (oc ic : Couch.Context) (pos pl pr : Couch.Position),
      Couch.evaluate_binary_expression (g + 2)
          ⟨.Binary ⟨.Integer a, pl⟩ ⟨.Integer b, pr⟩ .Division, pos⟩ oc ic =
        some (.Integer (a - b))) ∧
    Riara.run_text 13 "20 - 10".toList = some (.ok (.Int 10)) ∧
    Riara.run_text 13 "20 / 10".toList = some (.ok (.Int 2)) := by
  refine ⟨rfl, rfl, ?_, ?_, rfl, rfl⟩
  · intro g a b oc ic pos pl pr
    by_cases hb : b = 0
    · simp [hb, Couch.evaluate_binary_expression, Couch.evaluate_expression, Couch.value_div]
    · simp [hb, Couch.evaluate_binary_expression, Couch.evaluate_expression, Couch.value_div]
  · intro g a b oc ic pos pl pr
    rfl
/-- C2: panics are reachable from malformed input at the three cited spots:
a compound assignment with mismatched value kinds hits the
`implement_operator_assign!` `panic!`, an oversized integer literal hits
the `parse::<i64>().unwrap()`, and an integer division by zero panics in
riara's `eval_expr` — in the embedding each is `none`, not an error
value. -/
theorem malformed_input_panics_reachable :
    Couch.pipeline 10 "let mut a = 5; a += 5.5;".toList = none ∧
    Couch.expression_pipeline 8 "99999999999999999999".toList = none ∧
    Riara.run_text 12 "1 / 0".toList = none ∧
    (∀ (v : Int) (q : Rat), Couch.value_add_assign (.Integer v) (.Float q) = none) ∧
    parse_i64 "99999999999999999999".toList = none ∧
    (∀ (g : Nat) (ev : Riara.Evaluator) (pos pl pr : Riara.Pos) (a : Int),
      Riara.eval_expr (g + 2) ev ⟨.Binary .Divide ⟨.Int a, pl⟩ ⟨.Int 0, pr⟩, pos⟩ = none) :=
  ⟨rfl, rfl, rfl, fun _ _ => rfl, rfl, fun _ _ _ _ _ _ => rfl⟩
/-- C3 counterexample: riara's additive level is an iterative loop, so
`"20 - 10 - 5"` parses left-associated — `(20 - 10) - 5` with the inner
node at the first `-` (index 3) and the outer at the second (index 8) —
and evaluates to 5, which differs from the claimed 15
(`value_beq (Int 5) (Int 15) = false`). -/
theorem riara_additive_chain_left_associative :
    (Riara.parse_text 13 "20 - 10 - 5".toList).map (fun r => r.1) =
      some ⟨.Binary .Subtract
        ⟨.Binary .Subtract ⟨.Int 20, ⟨0, 1, 1⟩⟩ ⟨.Int 10, ⟨5, 1, 6⟩⟩, ⟨3, 1, 4⟩⟩
        ⟨.Int 5, ⟨10, 1, 11⟩⟩, ⟨8, 1, 9⟩⟩ ∧
    Riara.run_text 13 "20 - 10 - 5".toList = some (.ok (.Int 5)) ∧
    Riara.value_beq (.Int 5) (.Int 15) = false :=
  ⟨rfl, rfl, rfl⟩
/-- C3 amended: couch-lang's `parse_add_subtract` is right-recursive, so
there `"20 - 10 - 5"` parses as `20 - (10 - 5)` (inner node at index 5),
and with the swapped subtraction dispatch it evaluates to
`20 / (10 / 5) = 10`; riara parses the same text left-associated (outer
node at the second `-`, index 8) and evaluates it to 5. -/
theorem additive_chain_associativity_amended :
    (Couch.parse_expression 9
        { iter := Couch.lex "20 - 10 - 5".toList, text := "20 - 10 - 5".toList }).map
        (fun r => r.1) =
      some ⟨.Binary ⟨.Integer 20, ⟨0, 1, 1⟩⟩
        ⟨.Binary ⟨.Integer 10, ⟨5, 1, 6⟩⟩ ⟨.Integer 5, ⟨10, 1, 11⟩⟩ .Subtraction, ⟨5, 1, 6⟩⟩
        .Subtraction, ⟨0, 1, 1⟩⟩ ∧
    Couch.expression_pipeline 9 "20 - 10 - 5".toList = some (.Integer 10) ∧
    (Riara.parse_text 14 "20 - 10 - 5".toList).map (fun r => r.1.pos) = some ⟨8, 1, 9⟩ ∧
    Riara.run_text 14 "20 - 10 - 5".toList = some (.ok (.Int 5)) :=
  ⟨rfl, rfl, rfl, rfl⟩
/-- C4 counterexample: couch-lang's `evaluate_statements` is a `find_map`,
so the walk stops at the FIRST statement producing a value: `"1; 2;"`
yields integer 1, not the last statement's 2. -/
theorem couch_first_statement_value_short_circuits :
    Couch.pipeline 9 "1; 2;".toList = some (some (.Integer 1)) ∧
    (Couch.pipeline 9 "1; 2;".toList == some (some (Couch.Value.Integer 2))) = false :=
  ⟨rfl, by decide⟩
/-- C4 amended: the statement walk returns the first `Some` contribution
(an expression statement always contributes, so anything after the first
expression statement is dead); `==`/`!=` never propagate `Error` operands
(the derived `PartialEq` just compares them, here to `false`), while the
arithmetic operators replace an `Error` operand with a fresh
"no implementation exists for error + integer" error at the node's
position rather than propagating the original. -/
theorem couch_statement_walk_and_error_handling_amended :
    (∀ (g : Nat) (rest : List (Couch.PNode Couch.Statement)) (oc ic : Couch.Context)
        (pos pos2 : Couch.Position) (v : Int),
      Couch.evaluate_statements_loop (g + 1)
        (⟨.Expression ⟨.Integer v, pos2⟩, pos⟩ :: rest) oc ic = some (some (.Integer v))) ∧
    (∀ (g : Nat) (msg : String) (pos1 pos2 pos : Couch.Position) (v : Int)
        (oc ic : Couch.Context),
      Couch.evaluate_expression (g + 3)
        ⟨.Binary ⟨.Error msg, pos1⟩ ⟨.Integer v, pos2⟩ .Equal, pos⟩ oc ic =
          some (.Bool false)) ∧
    (∀ (g : Nat) (msg : String) (pos1 pos2 pos : Couch.Position) (v : Int)
        (oc ic : Couch.Context),
      Couch.evaluate_expression (g + 3)
        ⟨.Binary ⟨.Error msg, pos1⟩ ⟨.Integer v, pos2⟩ .Addition, pos⟩ oc ic =
          some (.Error "no implementation exists for error + integer"
            pos.line pos.column)) :=
  ⟨fun _ _ _ _ _ _ _ => rfl, fun _ _ _ _ _ _ _ _ => rfl, fun _ _ _ _ _ _ _ _ => rfl⟩
/-- C5: couch-lang token indices count characters, not bytes
(`IndexedCharIterator` advances `index` by one per character while token
lengths are byte lengths), so on `"Å+"` the `Plus` token has span `[1, 2)`;
slicing the UTF-8 bytes of the source there yields `[0x85]`, the trailing
byte of `Å`, not the lexeme `"+"` (`[0x2B]`), and the byte slice that
`Token::to_fancy_string` takes panics on the misaligned boundary. -/
theorem couch_token_spans_are_character_indexed :
    Couch.lex "Å+".toList = [⟨0, 2, .Error, 1, 1⟩, ⟨1, 1, .Plus, 1, 2⟩] ∧
    utf8Encode "Å+".toList = [0xC3, 0x85, 0x2B] ∧
    ((utf8Encode "Å+".toList).drop 1).take 1 = [0x85] ∧
    utf8Encode "+".toList = [0x2B] ∧
    byteSlice "Å+".toList 1 1 = none :=
  ⟨rfl, rfl, rfl, rfl, rfl⟩
/-- C6: riara scoping works as claimed: `enter_scope` only increments the
depth, `leave_scope` decrements it and retains exactly the symbols whose
depth is at most the new depth, `find_symbol` returns the most recently
pushed binding with the name, and shadowing behaves dynamically: the
nested-block program `{ let x = 1; { let x = 2; x } }` evaluates to 2
(the inner `let x` shadows the outer), while
`{ let x = 1; { let x = 2; x }; x }` evaluates to 1 (the inner binding is
evicted when its block ends); both leave the evaluator back at depth 0
with no symbols. -/
theorem riara_scope_depth_eviction_and_shadowing :
    (∀ ev : Riara.Evaluator, (Riara.enter_scope ev).stack_depth = ev.stack_depth + 1 ∧
      (Riara.enter_scope ev).symbols = ev.symbols) ∧
    (∀ ev : Riara.Evaluator, (Riara.leave_scope ev).stack_depth = ev.stack_depth - 1) ∧
    (∀ (ev : Riara.Evaluator) (s : Riara.Symbol),
      s ∈ (Riara.leave_scope ev).symbols ↔
        s ∈ ev.symbols ∧ s.stack_depth ≤ ev.stack_depth - 1) ∧
    (∀ (depth d : Nat) (syms : List Riara.Symbol) (id : String) (v : Riara.Value),
      Riara.find_symbol ⟨depth, syms ++ [⟨d, id, v⟩]⟩ id = some ⟨d, id, v⟩) ∧
    Riara.eval_expr 9 Riara.evaluator_new
      ⟨.Block [⟨.Let "x" ⟨.Int 1, ⟨10, 1, 11⟩⟩, ⟨2, 1, 3⟩⟩]
        (some ⟨.Block [⟨.Let "x" ⟨.Int 2, ⟨23, 1, 24⟩⟩, ⟨15, 1, 16⟩⟩]
          (some ⟨.Id "x", ⟨26, 1, 27⟩⟩), ⟨13, 1, 14⟩⟩), ⟨0, 1, 1⟩⟩ =
      some (⟨0, []⟩, .ok (.Int 2)) ∧
    Riara.eval_expr 9 Riara.evaluator_new
      ⟨.Block [⟨.Let "x" ⟨.Int 1, ⟨10, 1, 11⟩⟩, ⟨2, 1, 3⟩⟩,
          ⟨.Block [⟨.Let "x" ⟨.Int 2, ⟨23, 1, 24⟩⟩, ⟨15, 1, 16⟩⟩]
            (some ⟨.Id "x", ⟨26, 1, 27⟩⟩), ⟨13, 1, 14⟩⟩]
        (some ⟨.Id "x", ⟨31, 1, 32⟩⟩), ⟨0, 1, 1⟩⟩ =
      some (⟨0, []⟩, .ok (.Int 1)) := by
  refine ⟨fun ev => ⟨rfl, rfl⟩, fun ev => rfl, ?_, ?_, rfl, rfl⟩
  · intro ev s
    simp [Riara.leave_scope, List.mem_filter]
  · intro depth d syms id v
    simp [Riara.find_symbol, List.reverse_append]
/-- C7 counterexample: the spec's example program `let mut a = 5; a += 5; a`
(no trailing semicolon) does not evaluate to integer 10. The parser does
NOT panic: `parse_statements` succeeds, producing a `Let`, an `Assignment`,
and — from the `try_peek_or_error!` fallback at end of input — a
`Statement::Error` node `expected token, got end of file` at the eof
position (index 24, line 1, column 24). The failure is the evaluator's:
`evaluate_statement` hits the `todo!()` on every `Error` statement (`none`
in the embedding, proved for all fuels, messages, positions and contexts),
so the pipeline yields `none` rather than integer 10. -/
theorem couch_assignment_example_without_semicolon_panics :
    (Couch.parse_statements 10
        { iter := Couch.lex "let mut a = 5; a += 5; a".toList,
          text := "let mut a = 5; a += 5; a".toList }).map
        (fun r => r.1.map (fun st => match st.value with
          | .Let _ _ _ => "Let"
          | .Assignment _ _ _ => "Assignment"
          | .Expression _ => "Expression"
          | .Return _ => "Return"
          | .Error m => "Error: " ++ m)) =
      some ["Let", "Assignment", "Error: expected token, got end of file"] ∧
    (Couch.parse_statements 10
        { iter := Couch.lex "let mut a = 5; a += 5; a".toList,
          text := "let mut a = 5; a += 5; a".toList }).map
        (fun r => r.1.map (fun st => st.position)) =
      some [⟨0, 1, 1⟩, ⟨15, 1, 16⟩, ⟨24, 1, 24⟩] ∧
    (∀ (fuel : Nat) (msg : String) (pos : Couch.Position) (oc ic : Couch.Context),
      Couch.evaluate_statement fuel ⟨.Error msg, pos⟩ oc ic = none) ∧
    Couch.pipeline 10 "let mut a = 5; a += 5; a".toList = none ∧
    (Couch.pipeline 10 "let mut a = 5; a += 5; a".toList ==
      some (some (Couch.Value.Integer 10))) = false :=
  ⟨rfl, rfl, fun _ _ _ _ _ => rfl, rfl, by decide⟩
/-- C7 amended: with the required trailing semicolon,
`let mut a = 5; a += 5; a;` evaluates to integer 10; compound-assigning a
non-`mut` binding yields the error `identifier a is not mutable` at the
assignment's position (line 1, column 12), assigning an undefined name
yields `identifier a not defined` (line 1, column 1), and assigning to a
function binding yields `function definitions are not mutable`; the three
messages are pairwise distinct. -/
theorem couch_assignment_mutability_rules_amended :
    Couch.pipeline 10 "let mut a = 5; a += 5; a;".toList =
      some (some (.Integer 10)) ∧
    Couch.pipeline 9 "let a = 5; a += 1;".toList =
      some (some (.Error "identifier a is not mutable" 1 12)) ∧
    Couch.pipeline 8 "a += 1;".toList =
      some (some (.Error "identifier a not defined" 1 1)) ∧
    (∀ (g : Nat) (pos posl posr : Couch.Position) (fnStmt : Couch.PNode Couch.Statement),
      Couch.evaluate_statement (g + 1)
        ⟨.Assignment ⟨.Identifier "f", posl⟩ ⟨.Integer 1, posr⟩ .Base, pos⟩
        [] [("f", .Function fnStmt)] =
        some ([], [("f", .Function fnStmt)],
          some (.Error "function definitions are not mutable" pos.line pos.column))) ∧
    ("identifier a is not mutable" == "identifier a not defined") = false ∧
    ("identifier a is not mutable" == "function definitions are not mutable") = false ∧
    ("identifier a not defined" == "function definitions are not mutable") = false :=
  ⟨rfl, rfl, rfl, fun _ _ _ _ _ => rfl, by decide, by decide, by decide⟩
/-- C8 counterexample: a riara binary type error names only the operator,
not the operand types: `2 + true` produces the runtime error
`invalid binary Add operation` (at the operator, index 2), whose message
contains neither "int" nor "bool" as a substring. -/
theorem riara_type_error_names_operator_only :
    Riara.run_text 13 "2 + true".toList =
      some (.error ⟨.Runtime, ⟨2, 1, 3⟩, "invalid binary Add operation"⟩) ∧
    containsSub "int".toList "invalid binary Add operation".toList = false ∧
    containsSub "bool".toList "invalid binary Add operation".toList = false :=
  ⟨rfl, by decide, by decide⟩
/-- C8 amended: couch-lang arithmetic on same-kind numbers succeeds
(`2 + 4` is 6), a kind mismatch yields an error naming BOTH operand type
tags (`no implementation exists for float + integer`); riara `+` also
concatenates strings, and a riara operand-kind mismatch yields
`invalid binary Add operation`, naming only the operator. -/
theorem binary_operator_typing_amended :
    (∀ a b : Int, Couch.value_add (.Integer a) (.Integer b) =
      some (.ok (.Integer (a + b)))) ∧
    (∀ (q : Rat) (b : Int), Couch.value_add (.Float q) (.Integer b) =
      some (.error "no implementation exists for float + integer")) ∧
    containsSub "float".toList
      "no implementation exists for float + integer".toList = true ∧
    containsSub "integer".toList
      "no implementation exists for float + integer".toList = true ∧
    Couch.expression_pipeline 8 "2 + 4".toList = some (.Integer 6) ∧
    Couch.expression_pipeline 8 "2.5 + 4".toList =
      some (.Error "no implementation exists for float + integer" 1 1) ∧
    (∀ (g : Nat) (ev : Riara.Evaluator) (pos pl pr : Riara.Pos) (s t : String),
      Riara.eval_expr (g + 2) ev ⟨.Binary .Add ⟨.String s, pl⟩ ⟨.String t, pr⟩, pos⟩ =
        some (ev, .ok (.String (s ++ t)))) ∧
    (∀ (g : Nat) (ev : Riara.Evaluator) (pos pl pr : Riara.Pos) (a : Int) (b : Bool),
      Riara.eval_expr (g + 2) ev ⟨.Binary .Add ⟨.Int a, pl⟩ ⟨.Bool b, pr⟩, pos⟩ =
        some (ev, .error (Riara.runtime_error pos "invalid binary Add operation"))) :=
  ⟨fun _ _ => rfl, fun _ _ => rfl, by decide, by decide, rfl, rfl,
    fun _ _ _ _ _ _ _ => rfl, fun _ _ _ _ _ _ _ => rfl⟩
/-- C9: on an expression that starts with an unexpected token, couch-lang's
`parse_operand` fallback wraps the message in an `Expression::Identifier`
node — parsing `";"` yields `Identifier "unexpected operand Semicolon"`,
not an `Error` node — while riara produces an `Expr::Error` node and
pushes `expected operand, got Semicolon` (and then
`expected Eof, got Semicolon`) into the parser's error collector. -/
theorem couch_unexpected_operand_wrapped_in_identifier :
    (Couch.parse_expression 7
        { iter := Couch.lex ";".toList, text := ";".toList }).map (fun r => r.1) =
      some ⟨.Identifier "unexpected operand Semicolon", ⟨0, 1, 1⟩⟩ ∧
    (match (Couch.parse_expression 7
        { iter := Couch.lex ";".toList, text := ";".toList }).map
        (fun r => r.1.value) with
      | some (.Error _) => true
      | _ => false) = false ∧
    (match Riara.parse_text 11 ";".toList with
      | some (r, _) => (match r.value with | .Error => true | _ => false)
      | none => false) = true ∧
    (Riara.parse_text 11 ";".toList).map (fun r => r.1.pos) = some ⟨0, 1, 1⟩ ∧
    (Riara.parse_text 11 ";".toList).map (fun r => r.2.errors.map (fun e => e.message)) =
      some ["expected operand, got Semicolon", "expected Eof, got Semicolon"] :=
  ⟨rfl, rfl, rfl, rfl, rfl⟩
/-- C10: a `/*` with no matching `*/` before end of input silently ends the
couch-lang token stream: on `"1 + /*"` followed by any close-free tail, the
tokens before the opener are emitted and nothing — in particular no `Error`
token — is emitted for the comment or anything after it; by contrast an
unrecognized character (couch-lang, here `"`) yields an `Error` token and an
unterminated string (riara) yields an `Error` token plus a collected
"malformed string literal" error. -/
theorem couch_unterminated_block_comment_ends_stream
    (rest : List Char) (h : containsSub ['*', '/'] rest = false) :
    Couch.lex ('1' :: ' ' :: '+' :: ' ' :: '/' :: '*' :: rest) =
      [⟨0, 1, .Integer, 1, 1⟩, ⟨2, 1, .Plus, 1, 3⟩] ∧
    Couch.lex "\"ab".toList = [⟨0, 1, .Error, 1, 1⟩, ⟨1, 2, .Identifier, 1, 2⟩] ∧
    (Riara.next_token 6 (Riara.lexer_new "\"abc".toList)).map
        (fun r => (r.1.token_type, r.2.errors.map (fun e => e.message))) =
      some (.Error, ["malformed string literal"]) := by
  refine ⟨?_, rfl, rfl⟩
  have hb : Couch.block_comment_loop (Couch.indexed_chars rest 6 1 7) = none := by
    apply block_comment_loop_none_of_unclosed
    rw [indexed_chars_values]
    exact h
  simp [Couch.lex, Couch.tokenize, Couch.indexed_chars, Couch.tokenize_fuel, Couch.make_token,
        Couch.make_token_fuel, Couch.make_number, Couch.number_loop,
        Couch.make_single_or_double_token, Couch.make_single_token, Couch.make_comment_or_slash,
        Couch.ident_start, hb, utf8Len]

/-- Witness for C10 at the concrete tail `" foo"`. -/
theorem couch_unterminated_block_comment_ends_stream_witness :
    containsSub ['*', '/'] " foo".toList = false ∧
    (Couch.lex ('1' :: ' ' :: '+' :: ' ' :: '/' :: '*' :: " foo".toList) =
        [⟨0, 1, .Integer, 1, 1⟩, ⟨2, 1, .Plus, 1, 3⟩] ∧
      Couch.lex "\"ab".toList = [⟨0, 1, .Error, 1, 1⟩, ⟨1, 2, .Identifier, 1, 2⟩] ∧
      (Riara.next_token 6 (Riara.lexer_new "\"abc".toList)).map
          (fun r => (r.1.token_type, r.2.errors.map (fun e => e.message))) =
        some (.Error, ["malformed string literal"])) :=
  ⟨by decide, couch_unterminated_block_comment_ends_stream " foo".toList (by decide)⟩
